import Mathlib

/-! # punch-drunk-tiger: the XML marshaling adapter

A shallow embedding of `xml_marshaller.go` (package `punchdrunktiger`):
`Marshaled`, `XMLMarshaler.ServeHTTP`, `acceptXML` and `writeXMLError`.

Go strings are Lean strings.  The standard-library and go-tigertonic
functions the source calls (`strings`, `net/http`, `net/textproto`,
`reflect`, `unicode`, `encoding/xml`, `log`) are modelled next to the place where the
source uses them; the effects of `ServeHTTP` on its `http.ResponseWriter`, on
the request body, on the log and on the wrapped function are recorded, in
order, as a list of events.
-/

set_option autoImplicit false

namespace Punchdrunktiger

/-! ## package strings -/

/-- Go `strings.HasPrefix(s, prefix)`. -/
def HasPrefix (s pre : String) : Bool :=
  pre.data.isPrefixOf s.data

/-- Go `strings.Contains(s, substr)`: `substr` starts at some position of `s`. -/
def Contains (s substr : String) : Bool :=
  s.data.tails.any (fun t => substr.data.isPrefixOf t)

/-- Go `strings.ToLower(s)`, on the ASCII letters.  The source applies it to
the results of `http.StatusText` only, which are ASCII. -/
def ToLower (s : String) : String :=
  String.mk (s.data.map Char.toLower)

/-- Go `strings.Replace(s, old, new, -1)` for one-character `old` and `new`:
every occurrence is replaced. -/
def Replace (s : String) (old new : Char) : String :=
  String.mk (s.data.map (fun c => if c = old then new else c))

/-! ## package net/http: status codes -/

def StatusContinue : Int := 100
def StatusNoContent : Int := 204
def StatusBadRequest : Int := 400
def StatusNotAcceptable : Int := 406
def StatusUnsupportedMediaType : Int := 415
def StatusInternalServerError : Int := 500

/-- The table behind Go `http.StatusText`. -/
def statusText : List (Int × String) :=
  [ (100, "Continue"), (101, "Switching Protocols"), (102, "Processing"),
    (103, "Early Hints"),
    (200, "OK"), (201, "Created"), (202, "Accepted"),
    (203, "Non-Authoritative Information"), (204, "No Content"),
    (205, "Reset Content"), (206, "Partial Content"), (207, "Multi-Status"),
    (208, "Already Reported"), (226, "IM Used"),
    (300, "Multiple Choices"), (301, "Moved Permanently"), (302, "Found"),
    (303, "See Other"), (304, "Not Modified"), (305, "Use Proxy"),
    (307, "Temporary Redirect"), (308, "Permanent Redirect"),
    (400, "Bad Request"), (401, "Unauthorized"), (402, "Payment Required"),
    (403, "Forbidden"), (404, "Not Found"), (405, "Method Not Allowed"),
    (406, "Not Acceptable"), (407, "Proxy Authentication Required"),
    (408, "Request Timeout"), (409, "Conflict"), (410, "Gone"),
    (411, "Length Required"), (412, "Precondition Failed"),
    (413, "Request Entity Too Large"), (414, "Request URI Too Long"),
    (415, "Unsupported Media Type"), (416, "Requested Range Not Satisfiable"),
    (417, "Expectation Failed"), (418, "I\x27m a teapot"),
    (421, "Misdirected Request"), (422, "Unprocessable Entity"),
    (423, "Locked"), (424, "Failed Dependency"), (425, "Too Early"),
    (426, "Upgrade Required"), (428, "Precondition Required"),
    (429, "Too Many Requests"), (431, "Request Header Fields Too Large"),
    (451, "Unavailable For Legal Reasons"),
    (500, "Internal Server Error"), (501, "Not Implemented"),
    (502, "Bad Gateway"), (503, "Service Unavailable"),
    (504, "Gateway Timeout"), (505, "HTTP Version Not Supported"),
    (506, "Variant Also Negotiates"), (507, "Insufficient Storage"),
    (508, "Loop Detected"), (510, "Not Extended"),
    (511, "Network Authentication Required") ]

/-- Go `http.StatusText(code)`: the empty string for an unknown code. -/
def StatusText (code : Int) : String :=
  match statusText.lookup code with
  | some s => s
  | none => ""

/-! ## package net/textproto and net/http: header maps -/

/-- Go `textproto.validHeaderFieldByte`: the token characters of RFC 7230. -/
def validHeaderFieldByte (c : Char) : Bool :=
  c.isAlphanum || c.toNat ∈ [33, 35, 36, 37, 38, 39, 42, 43, 45, 46, 94, 95, 96, 124, 126]

/-- The loop of Go `textproto.canonicalMIMEHeaderKey`: upper case for the
first letter and for a letter after a dash, lower case elsewhere. -/
def canonicalize : Bool → List Char → List Char
  | _, [] => []
  | upper, c :: cs =>
    let d := if upper then c.toUpper else c.toLower
    d :: canonicalize (d = '-') cs

/-- Go `textproto.CanonicalMIMEHeaderKey(s)`: a key holding a byte that is
not a token character is returned unchanged. -/
def CanonicalMIMEHeaderKey (s : String) : String :=
  if s.data.all validHeaderFieldByte then String.mk (canonicalize true s.data) else s

/-- Go `http.Header`, a `map[string][]string`, as an association list.  The
order of the list is the order in which `range` visits the map. -/
abbrev Header := List (String × List String)

namespace Header

/-- Go `h[k]`: the values stored under the exact key `k`, none when absent. -/
def lookup (h : Header) (k : String) : List String :=
  match h with
  | [] => []
  | (k', vs) :: rest => if k' = k then vs else lookup rest k

/-- Go `delete(h, k)`. -/
def delete (h : Header) (k : String) : Header :=
  h.filter (fun e => e.1 ≠ k)

/-- Go `h[k] = vs`. -/
def store (h : Header) (k : String) (vs : List String) : Header :=
  match h with
  | [] => [(k, vs)]
  | (k', vs') :: rest => if k' = k then (k, vs) :: delete rest k else (k', vs') :: store rest k vs

/-- Go `h.Get(key)`: the first value under the canonical form of `key`. -/
def Get (h : Header) (key : String) : String :=
  match lookup h (CanonicalMIMEHeaderKey key) with
  | [] => ""
  | v :: _ => v

/-- Go `h.Set(key, value)`. -/
def Set (h : Header) (key value : String) : Header :=
  store h (CanonicalMIMEHeaderKey key) [value]

/-- Go `h.Add(key, value)`. -/
def Add (h : Header) (key value : String) : Header :=
  store h (CanonicalMIMEHeaderKey key) (lookup h (CanonicalMIMEHeaderKey key) ++ [value])

/-- Go `h.Del(key)`. -/
def Del (h : Header) (key : String) : Header :=
  delete h (CanonicalMIMEHeaderKey key)

end Header

/-! ## package reflect: types -/

/-- Go `reflect.Kind`. -/
inductive Kind where
  | Invalid | Bool | Int | Int8 | Int16 | Int32 | Int64
  | Uint | Uint8 | Uint16 | Uint32 | Uint64 | Uintptr
  | Float32 | Float64 | Complex64 | Complex128
  | Array | Chan | Func | Interface | Map | Ptr | Slice | String | Struct
  | UnsafePointer
deriving DecidableEq, Repr

/-- Go `Kind.String()`, which `%v` prints. -/
def kindString : Kind → String
  | .Invalid => "invalid" | .Bool => "bool" | .Int => "int" | .Int8 => "int8"
  | .Int16 => "int16" | .Int32 => "int32" | .Int64 => "int64" | .Uint => "uint"
  | .Uint8 => "uint8" | .Uint16 => "uint16" | .Uint32 => "uint32"
  | .Uint64 => "uint64" | .Uintptr => "uintptr" | .Float32 => "float32"
  | .Float64 => "float64" | .Complex64 => "complex64"
  | .Complex128 => "complex128" | .Array => "array" | .Chan => "chan"
  | .Func => "func" | .Interface => "interface" | .Map => "map" | .Ptr => "ptr"
  | .Slice => "slice" | .String => "string" | .Struct => "struct"
  | .UnsafePointer => "unsafe.Pointer"

/-- The kinds of the types that have an element type. -/
inductive ElemKind where
  | Array | Chan | Map | Ptr | Slice
deriving DecidableEq, Repr

def ElemKind.toKind : ElemKind → Kind
  | .Array => .Array | .Chan => .Chan | .Map => .Map | .Ptr => .Ptr | .Slice => .Slice

/-- The kinds of the types that have neither an element type nor parameters. -/
inductive BaseKind where
  | Invalid | Bool | Int | Int8 | Int16 | Int32 | Int64
  | Uint | Uint8 | Uint16 | Uint32 | Uint64 | Uintptr
  | Float32 | Float64 | Complex64 | Complex128
  | Interface | String | Struct | UnsafePointer
deriving DecidableEq, Repr

def BaseKind.toKind : BaseKind → Kind
  | .Invalid => .Invalid | .Bool => .Bool | .Int => .Int | .Int8 => .Int8
  | .Int16 => .Int16 | .Int32 => .Int32 | .Int64 => .Int64 | .Uint => .Uint
  | .Uint8 => .Uint8 | .Uint16 => .Uint16 | .Uint32 => .Uint32
  | .Uint64 => .Uint64 | .Uintptr => .Uintptr | .Float32 => .Float32
  | .Float64 => .Float64 | .Complex64 => .Complex64
  | .Complex128 => .Complex128 | .Interface => .Interface | .String => .String
  | .Struct => .Struct | .UnsafePointer => .UnsafePointer

/-- Go `reflect.Type`, as what its methods report: `str` is `String()`, `name`
is `Name()`, `methods` are the names of the method set (`NumMethod()` is their
number).  A type with an element type carries it, a function type carries its
parameter and result types. -/
inductive GoType where
  | base (kind : BaseKind) (str name : String) (methods : List String)
  | ref (kind : ElemKind) (str name : String) (methods : List String) (elem : GoType)
  | func (str name : String) (methods : List String) (ins outs : List GoType)

/-- What a Go panic carries: a `tt.MarshalerError`, or the text of any other
panic (a run-time error, a panic of `reflect` or of `net/http`). -/
inductive Panic where
  | marshalerError (msg : String)
  | runtime (msg : String)
deriving DecidableEq, Repr

namespace GoType

/-- Go `t.Kind()`. -/
def kind : GoType → Kind
  | .base k _ _ _ => k.toKind
  | .ref k _ _ _ _ => k.toKind
  | .func _ _ _ _ _ => .Func

/-- Go `t.String()`, which `%v` prints. -/
def string : GoType → String
  | .base _ s _ _ => s
  | .ref _ s _ _ _ => s
  | .func s _ _ _ _ => s

/-- Go `t.Name()`: the empty string for an unnamed type. -/
def name : GoType → String
  | .base _ _ n _ => n
  | .ref _ _ n _ _ => n
  | .func _ n _ _ _ => n

def methods : GoType → List String
  | .base _ _ _ ms => ms
  | .ref _ _ _ ms _ => ms
  | .func _ _ ms _ _ => ms

def NumMethod (t : GoType) : Nat :=
  t.methods.length

/-- Go `t.Elem()`: panics unless the kind is Array, Chan, Map, Ptr or Slice. -/
def Elem : GoType → Except Panic GoType
  | .ref _ _ _ _ e => .ok e
  | t => .error (.runtime ("reflect: Elem of invalid type " ++ t.string))

/-- Go `t.NumIn()`: panics unless the kind is Func. -/
def NumIn : GoType → Except Panic Nat
  | .func _ _ _ ins _ => .ok ins.length
  | t => .error (.runtime ("reflect: NumIn of non-func type " ++ t.string))

/-- Go `t.NumOut()`: panics unless the kind is Func. -/
def NumOut : GoType → Except Panic Nat
  | .func _ _ _ _ outs => .ok outs.length
  | t => .error (.runtime ("reflect: NumOut of non-func type " ++ t.string))

/-- Go `t.In(i)`: panics unless the kind is Func and `i` is in range. -/
def In : GoType → Nat → Except Panic GoType
  | .func _ _ _ ins _, i =>
    match ins.get? i with
    | some p => .ok p
    | none => .error (.runtime "runtime error: index out of range")
  | t, _ => .error (.runtime ("reflect: In of non-func type " ++ t.string))

/-- Go `t.Out(i)`: panics unless the kind is Func and `i` is in range. -/
def Out : GoType → Nat → Except Panic GoType
  | .func _ _ _ _ outs, i =>
    match outs.get? i with
    | some p => .ok p
    | none => .error (.runtime "runtime error: index out of range")
  | t, _ => .error (.runtime ("reflect: Out of non-func type " ++ t.string))

/-- Go `t.Implements(u)` for an interface type `u`: every method of `u` is in
the method set of `t`. -/
def Implements (t u : GoType) : Bool :=
  u.methods.all (fun m => t.methods.contains m)

end GoType

/-- The type `reflect.TypeOf((*interface{})(nil)).Elem()`, that is `interface{}`. -/
def emptyInterface : GoType :=
  .base .Interface "interface \x7b\x7d" "" []

/-- The type `*interface{}` of `(*interface{})(nil)`. -/
def ptrEmptyInterface : GoType :=
  .ref .Ptr "*interface \x7b\x7d" "" [] emptyInterface

/-! ## package reflect: values -/

/-- What a variable holds: its zero value, or what the XML decoder stored
there from a request body. -/
inductive Content where
  | zero
  | decoded (body : String)

/-- Go `reflect.Value`, for the values that `ServeHTTP` builds and passes on. -/
inductive GoValue where
  /-- The value `nilRequest`, that is `reflect.ValueOf((*interface{})(nil))`. -/
  | nilRequest
  /-- A pointer to a fresh variable of type `t`: `reflect.New(t)`. -/
  | ptrTo (t : GoType) (c : Content)
  /-- The variable of type `t` itself: `reflect.New(t).Elem()`. -/
  | valueOf (t : GoType) (c : Content)
  /-- The value `reflect.ValueOf(r.URL)`. -/
  | url (u : String)
  /-- The value `reflect.ValueOf(r.Header)`. -/
  | header (h : Header)
  /-- The zero `reflect.Value`, which `reflect.ValueOf(nil)` returns. -/
  | invalid
  /-- Any other value, such as a request context. -/
  | data (d : String)

/-- The test `rq == nilRequest` of the source. -/
def GoValue.isNilRequest : GoValue → Bool
  | .nilRequest => true
  | _ => false

/-- Go `v.Elem()` of `reflect.Value`. -/
def GoValue.Elem : GoValue → Except Panic GoValue
  | .ptrTo t c => .ok (.valueOf t c)
  | .nilRequest => .ok .invalid
  | _ => .error (.runtime "reflect: call of reflect.Value.Elem on non-pointer Value")

/-! ## errors -/

/-- A non-nil Go `error` value, as what the source asks of it: its dynamic
type, `Error()`, `Name()` when it implements `tt.NamedError`, and `Status()`
when it implements `tt.HTTPEquivError`. -/
structure GoError where
  typ : GoType
  message : String
  name : Option String
  status : Option Int

/-- The go-tigertonic `NewMarshalerError(format, args...)`: a `MarshalerError`
is a string type whose only method is `Error()`; `msg` is the formatted text. -/
def NewMarshalerError (msg : String) : GoError :=
  { typ := .base .String "tigertonic.MarshalerError" "MarshalerError" ["Error"],
    message := msg, name := none, status := none }

/-! ## the handler and the adapter -/

/-- A non-nil response value of the wrapped function, as what
`encoding/xml` makes of it: `xml` is the text that `Encode` writes to `w` for
it, `encodeErr` the error that `Encode` returns, if any. -/
structure ResponseValue where
  xml : String
  encodeErr : Option String

/-- The four results of the wrapped function: `out[0].Int()`,
`out[1].Interface().(http.Header)` (`none` is the nil map),
`out[2].Interface()` (`none` is the nil interface) and `out[3]` (`none` is the
nil error). -/
structure HandlerResult where
  status : Int
  header : Option Header
  rs : Option ResponseValue
  err : Option GoError

/-- A non-nil `interface{}` value handed to `Marshaled`: its dynamic type
and, for a function, what `reflect.Value.Call` on it returns (a panic of the
function, or of `Call` itself, is an error). -/
structure Boxed where
  typ : GoType
  call : List GoValue → Except Panic HandlerResult

/-- The struct `XMLMarshaler`. -/
structure XMLMarshaler where
  v : Boxed

/-- The function `Marshaled`.  The argument `none` is the nil interface, for
which `reflect.TypeOf` returns nil.  `panic(tt.NewMarshalerError(...))` is
`Panic.marshalerError` of the formatted message. -/
def Marshaled (i : Option Boxed) : Except Panic XMLMarshaler :=
  match i with
  | none => .error (.runtime "invalid memory address or nil pointer dereference")
  | some d =>
    let t := d.typ
    if Kind.Func ≠ t.kind then
      .error (.marshalerError ("kind was " ++ kindString t.kind ++ ", not Func"))
    else
    match t.NumIn with
    | .error p => .error p
    | .ok numIn =>
    if 3 ≠ numIn ∧ 4 ≠ numIn then
      .error (.marshalerError ("input arity was " ++ toString numIn ++ ", not 3 or 4"))
    else
    match t.In 0 with
    | .error p => .error p
    | .ok in0 =>
    if "*url.URL" ≠ in0.string then
      .error (.marshalerError
        ("type of first argument was " ++ in0.string ++ ", not *url.URL"))
    else
    match t.In 1 with
    | .error p => .error p
    | .ok in1 =>
    if "http.Header" ≠ in1.string then
      .error (.marshalerError
        ("type of second argument was " ++ in1.string ++ ", not http.Header"))
    else
    match t.In 2 with
    | .error p => .error p
    | .ok in2 =>
    if !in2.Implements emptyInterface then
      match t.Out 2 with
      | .error p => .error p
      | .ok out2 =>
        .error (.marshalerError
          ("type of third argument was " ++ out2.string ++ ", not some kind of interface\x7b\x7d"))
    else
    match t.NumOut with
    | .error p => .error p
    | .ok numOut =>
    if 4 ≠ numOut then
      .error (.marshalerError ("output arity was " ++ toString numOut ++ ", not 4"))
    else
    match t.Out 0 with
    | .error p => .error p
    | .ok out0 =>
    if Kind.Int ≠ out0.kind then
      .error (.marshalerError
        ("type of first return value was " ++ out0.string ++ ", not int"))
    else
    match t.Out 1 with
    | .error p => .error p
    | .ok out1 =>
    if "http.Header" ≠ out1.string then
      .error (.marshalerError
        ("type of second return value was " ++ out1.string ++ ", not http.Header"))
    else
    match t.Out 2 with
    | .error p => .error p
    | .ok out2 =>
    if !out2.Implements emptyInterface then
      .error (.marshalerError
        ("type of third return value was " ++ out2.string ++ ", not Response"))
    else
    match t.Out 3 with
    | .error p => .error p
    | .ok out3 =>
    if "error" ≠ out3.string then
      .error (.marshalerError
        ("type of fourth return value was " ++ out3.string ++ ", not error"))
    else
      .ok { v := d }

/-! ## package unicode -/

/-- The range table `unicode.Lower`: the code points of general category Ll
(Unicode 15.0.0), as triples of first code point, last code point and
stride. -/
def Lower : List (Nat × Nat × Nat) :=
  [ (0x0061, 0x007A, 1), (0x00B5, 0x00B5, 1), (0x00DF, 0x00F6, 1), (0x00F8, 0x00FF, 1),
    (0x0101, 0x0137, 2), (0x0138, 0x0148, 2), (0x0149, 0x0177, 2), (0x017A, 0x017E, 2),
    (0x017F, 0x0180, 1), (0x0183, 0x0183, 1), (0x0185, 0x0185, 1), (0x0188, 0x0188, 1),
    (0x018C, 0x018D, 1), (0x0192, 0x0192, 1), (0x0195, 0x0195, 1), (0x0199, 0x019B, 1),
    (0x019E, 0x019E, 1), (0x01A1, 0x01A5, 2), (0x01A8, 0x01A8, 1), (0x01AA, 0x01AB, 1),
    (0x01AD, 0x01AD, 1), (0x01B0, 0x01B0, 1), (0x01B4, 0x01B4, 1), (0x01B6, 0x01B6, 1),
    (0x01B9, 0x01BA, 1), (0x01BD, 0x01BF, 1), (0x01C6, 0x01CC, 3), (0x01CE, 0x01DC, 2),
    (0x01DD, 0x01EF, 2), (0x01F0, 0x01F0, 1), (0x01F3, 0x01F3, 1), (0x01F5, 0x01F5, 1),
    (0x01F9, 0x0233, 2), (0x0234, 0x0239, 1), (0x023C, 0x023C, 1), (0x023F, 0x0240, 1),
    (0x0242, 0x0242, 1), (0x0247, 0x024F, 2), (0x0250, 0x0293, 1), (0x0295, 0x02AF, 1),
    (0x0371, 0x0371, 1), (0x0373, 0x037B, 4), (0x037C, 0x037D, 1), (0x0390, 0x0390, 1),
    (0x03AC, 0x03CE, 1), (0x03D0, 0x03D1, 1), (0x03D5, 0x03D7, 1), (0x03D9, 0x03EF, 2),
    (0x03F0, 0x03F3, 1), (0x03F5, 0x03FB, 3), (0x03FC, 0x03FC, 1), (0x0430, 0x045F, 1),
    (0x0461, 0x0481, 2), (0x048B, 0x04BF, 2), (0x04C2, 0x04CE, 2), (0x04CF, 0x052F, 2),
    (0x0560, 0x0588, 1), (0x10D0, 0x10FA, 1), (0x10FD, 0x10FF, 1), (0x13F8, 0x13FD, 1),
    (0x1C80, 0x1C88, 1), (0x1D00, 0x1D2B, 1), (0x1D6B, 0x1D77, 1), (0x1D79, 0x1D9A, 1),
    (0x1E01, 0x1E95, 2), (0x1E96, 0x1E9D, 1), (0x1E9F, 0x1EFF, 2), (0x1F00, 0x1F07, 1),
    (0x1F10, 0x1F15, 1), (0x1F20, 0x1F27, 1), (0x1F30, 0x1F37, 1), (0x1F40, 0x1F45, 1),
    (0x1F50, 0x1F57, 1), (0x1F60, 0x1F67, 1), (0x1F70, 0x1F7D, 1), (0x1F80, 0x1F87, 1),
    (0x1F90, 0x1F97, 1), (0x1FA0, 0x1FA7, 1), (0x1FB0, 0x1FB4, 1), (0x1FB6, 0x1FB7, 1),
    (0x1FBE, 0x1FBE, 1), (0x1FC2, 0x1FC4, 1), (0x1FC6, 0x1FC7, 1), (0x1FD0, 0x1FD3, 1),
    (0x1FD6, 0x1FD7, 1), (0x1FE0, 0x1FE7, 1), (0x1FF2, 0x1FF4, 1), (0x1FF6, 0x1FF7, 1),
    (0x210A, 0x210A, 1), (0x210E, 0x210F, 1), (0x2113, 0x2113, 1), (0x212F, 0x2139, 5),
    (0x213C, 0x213D, 1), (0x2146, 0x2149, 1), (0x214E, 0x214E, 1), (0x2184, 0x2184, 1),
    (0x2C30, 0x2C5F, 1), (0x2C61, 0x2C61, 1), (0x2C65, 0x2C66, 1), (0x2C68, 0x2C6C, 2),
    (0x2C71, 0x2C71, 1), (0x2C73, 0x2C74, 1), (0x2C76, 0x2C7B, 1), (0x2C81, 0x2CE3, 2),
    (0x2CE4, 0x2CE4, 1), (0x2CEC, 0x2CEC, 1), (0x2CEE, 0x2CEE, 1), (0x2CF3, 0x2CF3, 1),
    (0x2D00, 0x2D25, 1), (0x2D27, 0x2D27, 1), (0x2D2D, 0x2D2D, 1), (0xA641, 0xA66D, 2),
    (0xA681, 0xA69B, 2), (0xA723, 0xA72F, 2), (0xA730, 0xA731, 1), (0xA733, 0xA771, 2),
    (0xA772, 0xA778, 1), (0xA77A, 0xA77A, 1), (0xA77C, 0xA77C, 1), (0xA77F, 0xA787, 2),
    (0xA78C, 0xA78C, 1), (0xA78E, 0xA78E, 1), (0xA791, 0xA791, 1), (0xA793, 0xA795, 1),
    (0xA797, 0xA7A9, 2), (0xA7AF, 0xA7AF, 1), (0xA7B5, 0xA7C3, 2), (0xA7C8, 0xA7C8, 1),
    (0xA7CA, 0xA7CA, 1), (0xA7D1, 0xA7D9, 2), (0xA7F6, 0xA7F6, 1), (0xA7FA, 0xA7FA, 1),
    (0xAB30, 0xAB5A, 1), (0xAB60, 0xAB68, 1), (0xAB70, 0xABBF, 1), (0xFB00, 0xFB06, 1),
    (0xFB13, 0xFB17, 1), (0xFF41, 0xFF5A, 1), (0x10428, 0x1044F, 1), (0x104D8, 0x104FB, 1),
    (0x10597, 0x105A1, 1), (0x105A3, 0x105B1, 1), (0x105B3, 0x105B9, 1), (0x105BB, 0x105BC, 1),
    (0x10CC0, 0x10CF2, 1), (0x118C0, 0x118DF, 1), (0x16E60, 0x16E7F, 1), (0x1D41A, 0x1D433, 1),
    (0x1D44E, 0x1D454, 1), (0x1D456, 0x1D467, 1), (0x1D482, 0x1D49B, 1), (0x1D4B6, 0x1D4B9, 1),
    (0x1D4BB, 0x1D4BB, 1), (0x1D4BD, 0x1D4C3, 1), (0x1D4C5, 0x1D4CF, 1), (0x1D4EA, 0x1D503, 1),
    (0x1D51E, 0x1D537, 1), (0x1D552, 0x1D56B, 1), (0x1D586, 0x1D59F, 1), (0x1D5BA, 0x1D5D3, 1),
    (0x1D5EE, 0x1D607, 1), (0x1D622, 0x1D63B, 1), (0x1D656, 0x1D66F, 1), (0x1D68A, 0x1D6A5, 1),
    (0x1D6C2, 0x1D6DA, 1), (0x1D6DC, 0x1D6E1, 1), (0x1D6FC, 0x1D714, 1), (0x1D716, 0x1D71B, 1),
    (0x1D736, 0x1D74E, 1), (0x1D750, 0x1D755, 1), (0x1D770, 0x1D788, 1), (0x1D78A, 0x1D78F, 1),
    (0x1D7AA, 0x1D7C2, 1), (0x1D7C4, 0x1D7C9, 1), (0x1D7CB, 0x1D7CB, 1), (0x1DF00, 0x1DF09, 1),
    (0x1DF0B, 0x1DF1E, 1), (0x1DF25, 0x1DF2A, 1), (0x1E922, 0x1E943, 1) ]

/-- Go `unicode.IsLower(r)`: `r` is in one of the ranges of `unicode.Lower`. -/
def IsLower (r : Char) : Bool :=
  Lower.any (fun t => t.1 ≤ r.toNat && r.toNat ≤ t.2.1 && (r.toNat - t.1) % t.2.2 = 0)

/-! ## the request, the response writer and the environment -/

/-- The fields of `*http.Request` that the source reads. -/
structure Request where
  Method : String
  Header : Header
  Body : String
  URL : String

/-- What is handed to `xml.NewEncoder(w).Encode`: the `map[string]string` of
`writeXMLError`, or the handler's response value. -/
inductive Doc where
  | mapOf (fields : List (String × String))
  | value (v : ResponseValue)

/-- Go `xml.NewEncoder(w).Encode(doc)`: the text it writes to `w` and the
error it returns.  `encoding/xml` has no encoding for a map: for the
`map[string]string` of `writeXMLError` it returns an `UnsupportedTypeError`
and writes nothing. -/
def xmlEncode : Doc → String × Option String
  | .mapOf _ => ("", some "xml: unsupported type: map[string]string")
  | .value v => (v.xml, v.encodeErr)

/-- The effects of `ServeHTTP`, in the order in which they happen. -/
inductive Event where
  /-- The call `w.WriteHeader(status)`; `hdr` is `w.Header()` at that moment. -/
  | writeHeader (status : Int) (hdr : Header)
  /-- Text written to the response body, by `fmt.Fprintf(w, ...)` or by the
  XML encoder. -/
  | write (text : String)
  /-- The call `xml.NewEncoder(w).Encode(doc)`. -/
  | encode (doc : Doc)
  /-- The call `xml.NewDecoder(r.Body).Decode(rq)`, which reads the body. -/
  | decode (rq : GoValue)
  /-- The call `r.Body.Close()`. -/
  | close
  /-- The call `m.v.Call(args)` of the wrapped function. -/
  | call (args : List GoValue)
  /-- A line written with `log.Printf` or `log.Println`. -/
  | log (line : String)

/-- The `http.ResponseWriter` together with the record of what happened:
`header` is the map `w.Header()`, `panic` is set when `ServeHTTP` panicked. -/
structure Response where
  header : Header
  events : List Event
  panic : Option Panic

/-- A response writer to which nothing has happened yet. -/
def Response.init (h : Header) : Response :=
  { header := h, events := [], panic := none }

def Response.emit (w : Response) (e : Event) : Response :=
  { w with events := w.events ++ [e] }

def Response.raise (w : Response) (p : Panic) : Response :=
  { w with panic := some p }

/-- What follows a statement that may panic: `k` runs only if `w` holds no
panic. -/
def Response.andThen (w : Response) (k : Response → Response) : Response :=
  match w.panic with
  | some _ => w
  | none => k w

/-- The call `w.WriteHeader(status)` on a writer of `net/http` (or of
`net/http/httptest`): the call is made with the header set as it is, and
`checkWriteHeaderCode` panics for a code below 100 or above 999. -/
def Response.WriteHeader (w : Response) (status : Int) : Response :=
  let w := w.emit (.writeHeader status w.header)
  if status < 100 ∨ status > 999 then
    w.raise (.runtime ("invalid WriteHeader code " ++ toString status))
  else w

/-- The statement
`if err := xml.NewEncoder(w).Encode(doc); nil != err { log.Println(err) }`:
the encoder is called, what it produces is written to the body, and its error
is logged. -/
def Response.Encode (w : Response) (doc : Doc) : Response :=
  let w := w.emit (.encode doc)
  let w := if (xmlEncode doc).1 = "" then w else w.emit (.write (xmlEncode doc).1)
  match (xmlEncode doc).2 with
  | some encErr => w.emit (.log (encErr ++ "\n"))
  | none => w

/-- What the source takes from outside: the global
`tt.SnakeCaseHTTPEquivErrors`, the XML decoder (the error of decoding a body
into a variable of a type, if any) and `reflect.ValueOf(tt.Context(r))`. -/
structure Env where
  SnakeCaseHTTPEquivErrors : Bool
  Decode : String → GoType → Option GoError
  Context : GoValue

/-! ## the source: acceptXML, writeXMLError, ServeHTTP -/

/-- The function `acceptXML`. -/
def acceptXML (r : Request) : Bool :=
  let accept := r.Header.Get "Accept"
  if "" = accept then
    true
  else
    Contains accept "*/*" || Contains accept "application/xml"

/-- Go `utf8.DecodeRuneInString(s)`, its first result: the first rune, or
`utf8.RuneError` (U+FFFD) for the empty string. -/
def DecodeRuneInString (s : String) : Char :=
  match s.data with
  | [] => Char.ofNat 0xFFFD
  | c :: _ => c

/-- The value of the variable `e` of `writeXMLError`: the text of the
`error` field. -/
def errorField (env : Env) (err : GoError) : Except Panic String :=
  match err.name with
  | some n => .ok n
  | none =>
    match err.status, env.SnakeCaseHTTPEquivErrors with
    | some st, true => .ok (Replace (ToLower (StatusText st)) ' ' '_')
    | _, _ =>
      let t := err.typ
      match (if Kind.Ptr = t.kind then t.Elem else .ok t) with
      | .error p => .error p
      | .ok t =>
        let e := t.string
        if IsLower (DecodeRuneInString t.name) then .ok "error" else .ok e

/-- The function `writeXMLError`. -/
def writeXMLError (env : Env) (w : Response) (err : GoError) : Response :=
  match errorField env err with
  | .error p => w.raise p
  | .ok e => w.Encode (.mapOf [("description", err.message), ("error", e)])

/-- Lines 101 to 112 of `ServeHTTP`: the value `rq` for the declared request
type `in2`. -/
def newRequest (in2 : GoType) : Except Panic GoValue :=
  if Kind.Interface = in2.kind ∧ 0 = in2.NumMethod then
    .ok .nilRequest
  else if Kind.Slice = in2.kind ∨ Kind.Map = in2.kind then
    .ok (.ptrTo in2 .zero)
  else
    match in2.Elem with
    | .error p => .error p
    | .ok e => .ok (.ptrTo e .zero)

/-- The call `decoder.Decode(rq)`: its error, and `rq` afterwards. -/
def decodeInto (env : Env) (body : String) : GoValue → Option GoError × GoValue
  | .ptrTo t _ => (env.Decode body t, .ptrTo t (.decoded body))
  | v => (some { typ := .ref .Ptr "*errors.errorString" "" ["Error"]
                   (.base .Struct "errors.errorString" "errorString" []),
                 message := "non-pointer passed to Unmarshal", name := none, status := none }, v)

/-- Lines 182 to 187 of `ServeHTTP`: the loop over the handler's header map,
which deletes each of its keys from `wHeader` and adds the values one by
one. -/
def mergeHeaders (wHeader : Header) (header : Header) : Header :=
  header.foldl (fun (wHeader : Header) (kv : String × List String) =>
    kv.2.foldl (fun (wHeader : Header) (value : String) => wHeader.Add kv.1 value)
      (wHeader.Del kv.1)) wHeader

/-- Lines 166 to 194 of `ServeHTTP`: what is done with the results of the
wrapped function. -/
def respond (env : Env) (w : Response) (out : HandlerResult) : Response :=
  let status := out.status
  let header := out.header
  let rs := out.rs
  match out.err with
  | some err =>
    let w :=
      match err.status with
      | some st => w.WriteHeader st
      | none =>
        if StatusContinue > status then w.WriteHeader StatusInternalServerError
        else w.WriteHeader status
    w.andThen fun w => writeXMLError env w err
  | none =>
    let w :=
      match header with
      | some header => { w with header := mergeHeaders w.header header }
      | none => w
    let w := w.WriteHeader status
    w.andThen fun w =>
      match rs with
      | some v => if StatusNoContent ≠ status then w.Encode (.value v) else w
      | none => w

/-- Lines 147 to 165 of `ServeHTTP`: the call of the wrapped function. -/
def invoke (env : Env) (m : XMLMarshaler) (w : Response) (r : Request)
    (in2 : GoType) (rq : GoValue) : Response :=
  match (if in2.kind = Kind.Slice ∨ Kind.Map = in2.kind then rq.Elem else .ok rq) with
  | .error p => w.raise p
  | .ok rq =>
    match m.v.typ.NumIn with
    | .error p => w.raise p
    | .ok numIn =>
      let args :=
        if 3 = numIn then [GoValue.url r.URL, GoValue.header r.Header, rq]
        else [GoValue.url r.URL, GoValue.header r.Header, rq, env.Context]
      let w := w.emit (.call args)
      match m.v.call args with
      | .error p => w.raise p
      | .ok out => respond env w out

/-- The method `XMLMarshaler.ServeHTTP`. -/
def ServeHTTP (env : Env) (m : XMLMarshaler) (w : Response) (r : Request) : Response :=
  if !acceptXML r then
    let w := { w with header := w.header.Set "Content-Type" "text/plain" }
    let w := w.WriteHeader StatusNotAcceptable
    w.andThen fun w =>
      w.emit (.write ("\"" ++ r.Header.Get "Accept" ++ "\" does not contain \"application/xml\""))
  else
    let w := { w with header := w.header.Set "Content-Type" "application/xml" }
    match m.v.typ.In 2 with
    | .error p => w.raise p
    | .ok in2 =>
      match newRequest in2 with
      | .error p => w.raise p
      | .ok rq =>
        if "PATCH" = r.Method ∨ "POST" = r.Method ∨ "PUT" = r.Method then
          if rq.isNilRequest then
            let w := w.WriteHeader StatusInternalServerError
            w.andThen fun w =>
              writeXMLError env w (NewMarshalerError
                ("empty interface is not suitable for " ++ r.Method ++ " request bodies"))
          else if !HasPrefix (r.Header.Get "Content-Type") "application/xml" then
            let w := w.WriteHeader StatusUnsupportedMediaType
            w.andThen fun w =>
              writeXMLError env w (NewMarshalerError
                ("Content-Type header is " ++ r.Header.Get "Content-Type" ++
                  ", not application/xml"))
          else
            let w := w.emit (.decode rq)
            match decodeInto env r.Body rq with
            | (some err, _) =>
              let w := w.WriteHeader StatusBadRequest
              w.andThen fun w => writeXMLError env w err
            | (none, rq) =>
              let w := w.emit .close
              invoke env m w r in2 rq
        else if !rq.isNilRequest then
          let w := w.emit (.log (r.Method ++
            " request body isn\x27t an empty interface; this is weird and is being ignored\n"))
          invoke env m w r in2 rq
        else
          invoke env m w r in2 rq

/-! ## reading the record of a run -/

/-- The argument lists of the calls of the wrapped function, in order. -/
def calls (es : List Event) : List (List GoValue) :=
  es.filterMap (fun e => match e with | .call args => some args | _ => none)

/-- The status codes passed to `w.WriteHeader`, in order. -/
def statuses (es : List Event) : List Int :=
  es.filterMap (fun e => match e with | .writeHeader st _ => some st | _ => none)

/-- The header maps that the response held at each `w.WriteHeader`, in order. -/
def headersSent (es : List Event) : List Header :=
  es.filterMap (fun e => match e with | .writeHeader _ hdr => some hdr | _ => none)

/-- The texts written to the response body, in order. -/
def textsWritten (es : List Event) : List String :=
  es.filterMap (fun e => match e with | .write t => some t | _ => none)

/-- What is handed to the XML encoder, call by call. -/
def encodeCalls (es : List Event) : List Doc :=
  es.filterMap (fun e => match e with | .encode doc => some doc | _ => none)

/-- The destinations of the calls of the XML decoder on the request body. -/
def bodyReads (es : List Event) : List GoValue :=
  es.filterMap (fun e => match e with | .decode rq => some rq | _ => none)

/-- The lines written to the log, in order. -/
def logLines (es : List Event) : List String :=
  es.filterMap (fun e => match e with | .log line => some line | _ => none)

/-! ## the construction rules, as `Marshaled` tests them -/

/-- The parameter types of a function type (none for another type). -/
def GoType.params : GoType → List GoType
  | .func _ _ _ ins _ => ins
  | _ => []

/-- The result types of a function type (none for another type). -/
def GoType.results : GoType → List GoType
  | .func _ _ _ _ outs => outs
  | _ => []

/-- Rule 1: the value is a function. -/
def Rule1 (t : GoType) : Prop := t.kind = Kind.Func
/-- Rule 2: it takes exactly 3 or 4 parameters. -/
def Rule2 (t : GoType) : Prop := t.params.length = 3 ∨ t.params.length = 4
/-- Rule 3: the type of parameter 1 prints as `*url.URL`. -/
def Rule3 (t : GoType) : Prop := ∃ p, t.params.get? 0 = some p ∧ p.string = "*url.URL"
/-- Rule 4: the type of parameter 2 prints as `http.Header`. -/
def Rule4 (t : GoType) : Prop := ∃ p, t.params.get? 1 = some p ∧ p.string = "http.Header"
/-- Rule 5: parameter 3 implements `interface{}`. -/
def Rule5 (t : GoType) : Prop :=
  ∃ p, t.params.get? 2 = some p ∧ p.Implements emptyInterface = true
/-- Rule 6: it returns exactly 4 values: the first of kind int, the second
of a type that prints as `http.Header`, the third implementing `interface{}`,
the fourth of a type that prints as `error`. -/
def Rule6 (t : GoType) : Prop :=
  ∃ o0 o1 o2 o3, t.results = [o0, o1, o2, o3] ∧ o0.kind = Kind.Int ∧
    o1.string = "http.Header" ∧ o2.Implements emptyInterface = true ∧ o3.string = "error"

/-- All six construction rules hold. -/
def Conforms (t : GoType) : Prop :=
  Rule1 t ∧ Rule2 t ∧ Rule3 t ∧ Rule4 t ∧ Rule5 t ∧ Rule6 t

/-- The value that a handler whose declared request type is `in2` is to
receive when no body is decoded: for a pointer type a pointer to a fresh zero
value of the element type, otherwise the zero value of `in2` itself. -/
def zeroRequest : GoType → GoValue
  | .ref .Ptr _ _ _ e => .ptrTo e .zero
  | t => .valueOf t .zero

/-- A type with one pointer level removed. -/
def pointee : GoType → GoType
  | .ref .Ptr _ _ _ e => e
  | t => t

/-! ## closed forms used in the proofs -/

/-- Lines 56 to 83 of `Marshaled`, the checks on the result types, in
closed form. -/
def checkResults (d : Boxed) (outs : List GoType) : Except Panic XMLMarshaler :=
  match outs with
  | [o0, o1, _, o3] =>
    if Kind.Int ≠ o0.kind then
      .error (.marshalerError ("type of first return value was " ++ o0.string ++ ", not int"))
    else if "http.Header" ≠ o1.string then
      .error (.marshalerError
        ("type of second return value was " ++ o1.string ++ ", not http.Header"))
    else if "error" ≠ o3.string then
      .error (.marshalerError ("type of fourth return value was " ++ o3.string ++ ", not error"))
    else .ok { v := d }
  | _ => .error (.marshalerError ("output arity was " ++ toString outs.length ++ ", not 4"))

/-- A response writer to which `ServeHTTP` has so far done nothing but set
the Content-Type: no status, no body, no call of the wrapped function. -/
structure Quiet (h : Header) (w : Response) : Prop where
  header : w.header = h
  panic : w.panic = none
  calls : calls w.events = []
  statuses : statuses w.events = []
  headersSent : headersSent w.events = []
  textsWritten : textsWritten w.events = []
  encodeCalls : encodeCalls w.events = []

/-- Events that are neither a call of the wrapped function, nor a
`WriteHeader`, nor a read of the request body. -/
structure Silent (es : List Event) : Prop where
  calls : calls es = []
  statuses : statuses es = []
  headersSent : headersSent es = []
  bodyReads : bodyReads es = []

/-- The status that lines 171 to 177 and 189 pass to `w.WriteHeader`. -/
def statusWritten (out : HandlerResult) : Int :=
  match out.err with
  | some err =>
    (match err.status with
     | some st => st
     | none =>
       if StatusContinue > out.status then StatusInternalServerError else out.status)
  | none => out.status

/-- The header set of the response when `respond` calls `w.WriteHeader`. -/
def headerWritten (wHeader : Header) (out : HandlerResult) : Header :=
  match out.err, out.header with
  | none, some header => mergeHeaders wHeader header
  | _, _ => wHeader

/-- What `Response.Encode` adds to the record after the call of the encoder. -/
def encodeTail (doc : Doc) : List Event :=
  (if (xmlEncode doc).1 = "" then [] else [Event.write (xmlEncode doc).1]) ++
  (match (xmlEncode doc).2 with
   | some encErr => [Event.log (encErr ++ "\n")]
   | none => [])

/-! ## sample values -/

/-- The type `*url.URL`. -/
def urlPointer : GoType :=
  .ref .Ptr "*url.URL" "" ["String"] (.base .Struct "url.URL" "URL" [])

/-- The type `http.Header`. -/
def headerType : GoType :=
  .ref .Map "http.Header" "Header" ["Add", "Del", "Get", "Set"]
    (.ref .Slice "[]string" "" [] (.base .String "string" "string" []))

/-- The type `int`. -/
def intType : GoType := .base .Int "int" "int" []

/-- The type `error`. -/
def errorType : GoType := .base .Interface "error" "error" ["Error"]

/-- The type `func(*url.URL, http.Header, T) (int, http.Header, interface{}, error)`
for the request type `T`. -/
def handlerType (request : GoType) : GoType :=
  .func ("func(*url.URL, http.Header, " ++ request.string ++
      ") (int, http.Header, interface \x7b\x7d, error)") "" []
    [urlPointer, headerType, request] [intType, headerType, emptyInterface, errorType]

/-- A struct type `main.Request`, declared by the user of the package. -/
def requestStruct : GoType := .base .Struct "main.Request" "Request" []

/-- The type `*main.Request`. -/
def requestPointer : GoType := .ref .Ptr "*main.Request" "" [] requestStruct

/-- A function of type `t` that returns `out` whatever it is given. -/
def handlerReturning (t : GoType) (out : HandlerResult) : Boxed :=
  { typ := t, call := fun _ => .ok out }

/-- An environment: snake-case names on, a decoder that never fails, no
request context. -/
def sampleEnv : Env :=
  { SnakeCaseHTTPEquivErrors := true, Decode := fun _ _ => none, Context := .invalid }

/-- A response value that `encoding/xml` encodes without error. -/
def thing : ResponseValue :=
  { xml := "<Thing><Id>7</Id></Thing>", encodeErr := none }

/-- A defined type `main.Code` whose underlying type is `int`. -/
def codeType : GoType := .base .Int "main.Code" "Code" []

/-- The type `func(*url.URL, http.Header, *main.Request) (main.Code, http.Header,
interface{}, error)`: the first result is the defined type `main.Code`. -/
def codeHandlerType : GoType :=
  .func ("func(*url.URL, http.Header, *main.Request) " ++
      "(main.Code, http.Header, interface \x7b\x7d, error)") "" []
    [urlPointer, headerType, requestPointer] [codeType, headerType, emptyInterface, errorType]

/-- A GET request without headers. -/
def getRequest : Request :=
  { Method := "GET", Header := [], Body := "", URL := "/things" }

/-- A GET request that accepts JSON only. -/
def jsonRequest : Request :=
  { Method := "GET", Header := [("Accept", ["application/json"])], Body := "", URL := "/things" }

/-- A POST request whose body is declared as plain text. -/
def postTextRequest : Request :=
  { Method := "POST", Header := [("Content-Type", ["text/plain"])], Body := "hello",
    URL := "/things" }

/-- An error made with `errors.New("boom")`: neither named nor HTTP-equivalent. -/
def plainError : GoError :=
  { typ := .ref .Ptr "*errors.errorString" "" ["Error"]
      (.base .Struct "errors.errorString" "errorString" []),
    message := "boom", name := none, status := none }

/-- An error of an exported type `main.Missing` whose `Status()` is 404. -/
def notFoundError : GoError :=
  { typ := .base .Struct "main.Missing" "Missing" ["Error", "Status"],
    message := "no such thing", name := none, status := some 404 }

/-! ## lemmas: strings -/

theorem Contains_iff (s substr : String) :
    Contains s substr = true ↔ ∃ pre post : String, s = pre ++ substr ++ post := by
  unfold Contains
  rw [List.any_eq_true]
  constructor
  · rintro ⟨t, ht, hp⟩
    rw [List.mem_tails] at ht
    rw [List.isPrefixOf_iff_prefix] at hp
    obtain ⟨pre, hpre⟩ := ht
    obtain ⟨post, hpost⟩ := hp
    refine ⟨String.mk pre, String.mk post, ?_⟩
    apply String.ext
    simp [String.data_append, ← hpre, ← hpost]
  · rintro ⟨pre, post, h⟩
    refine ⟨substr.data ++ post.data, ?_, ?_⟩
    · rw [List.mem_tails, h]
      exact ⟨pre.data, by simp [String.data_append]⟩
    · rw [List.isPrefixOf_iff_prefix]
      exact ⟨post.data, rfl⟩

theorem HasPrefix_iff (s pre : String) :
    HasPrefix s pre = true ↔ ∃ post : String, s = pre ++ post := by
  unfold HasPrefix
  rw [List.isPrefixOf_iff_prefix]
  constructor
  · rintro ⟨post, h⟩
    exact ⟨String.mk post, String.ext (by simp [String.data_append, ← h])⟩
  · rintro ⟨post, h⟩
    exact ⟨post.data, by rw [h]; simp [String.data_append]⟩

theorem acceptXML_eq_true_iff (r : Request) :
    acceptXML r = true ↔
      (r.Header.Get "Accept" = "" ∨
       (∃ pre post : String, r.Header.Get "Accept" = pre ++ "*/*" ++ post) ∨
       (∃ pre post : String, r.Header.Get "Accept" = pre ++ "application/xml" ++ post)) := by
  unfold acceptXML
  by_cases h : "" = r.Header.Get "Accept"
  · simp [← h]
  · have h2 : ¬ (Header.Get r.Header "Accept" = "") := fun e => h e.symm
    simp only [h, if_false, Bool.or_eq_true, Contains_iff, h2, false_or]

theorem toLower_eq_space (c : Char) : (c.toLower = ' ') ↔ (c = ' ') := by
  constructor
  · intro h
    unfold Char.toLower at h
    simp only [] at h
    by_cases hr : c.toNat ≥ 65 ∧ c.toNat ≤ 90
    · rw [if_pos hr] at h
      exfalso
      obtain ⟨h1, h2⟩ := hr
      generalize c.toNat = n at h h1 h2
      interval_cases n <;> exact absurd h (by decide)
    · rw [if_neg hr] at h
      exact h
  · intro h
    subst h
    rfl

theorem snake_case_eq (s : String) :
    Replace (ToLower s) ' ' '_' =
      String.mk (s.data.map (fun c => if c = ' ' then '_' else c.toLower)) := by
  unfold Replace ToLower
  congr 1
  rw [List.map_map]
  apply List.map_congr_left
  intro c _
  simp only [Function.comp, toLower_eq_space]

/-! ## lemmas: header maps -/

namespace Header

theorem lookup_nil (k : String) : lookup [] k = [] := rfl

theorem lookup_cons (k' : String) (vs : List String) (rest : Header) (k : String) :
    lookup ((k', vs) :: rest) k = if k' = k then vs else lookup rest k := rfl

theorem delete_cons (k' : String) (vs : List String) (rest : Header) (k : String) :
    delete ((k', vs) :: rest) k =
      if k' = k then delete rest k else (k', vs) :: delete rest k := by
  by_cases hk : k' = k <;> simp [delete, hk]

theorem store_cons (k' : String) (vs' : List String) (rest : Header) (k : String)
    (vs : List String) :
    store ((k', vs') :: rest) k vs =
      if k' = k then (k, vs) :: delete rest k else (k', vs') :: store rest k vs := rfl

theorem lookup_delete_self (h : Header) (k : String) : lookup (delete h k) k = [] := by
  induction h with
  | nil => rfl
  | cons e rest ih =>
    obtain ⟨k', vs⟩ := e
    rw [delete_cons]
    split_ifs with hk
    · exact ih
    · rw [lookup_cons, if_neg hk]
      exact ih

theorem lookup_delete_ne (h : Header) (k n : String) (hn : n ≠ k) :
    lookup (delete h k) n = lookup h n := by
  induction h with
  | nil => rfl
  | cons e rest ih =>
    obtain ⟨k', vs⟩ := e
    rw [delete_cons, lookup_cons]
    split_ifs with hk hkn hkn
    · exact absurd (hkn.symm.trans hk) hn
    · exact ih
    · rw [lookup_cons, if_pos hkn]
    · rw [lookup_cons, if_neg hkn]
      exact ih

theorem lookup_store_self (h : Header) (k : String) (vs : List String) :
    lookup (store h k vs) k = vs := by
  induction h with
  | nil => simp [store, lookup]
  | cons e rest ih =>
    obtain ⟨k', vs'⟩ := e
    rw [store_cons]
    split_ifs with hk
    · rw [lookup_cons, if_pos rfl]
    · rw [lookup_cons, if_neg hk]
      exact ih

theorem lookup_store_ne (h : Header) (k n : String) (vs : List String) (hn : n ≠ k) :
    lookup (store h k vs) n = lookup h n := by
  induction h with
  | nil =>
    have : ¬ k = n := fun e => hn e.symm
    simp [store, lookup, this]
  | cons e rest ih =>
    obtain ⟨k', vs'⟩ := e
    rw [store_cons, lookup_cons]
    split_ifs with hk hkn hkn
    · exact absurd (hkn.symm.trans hk) hn
    · rw [lookup_cons, if_neg (fun e => hn e.symm)]
      exact lookup_delete_ne rest k n hn
    · rw [lookup_cons, if_pos hkn]
    · rw [lookup_cons, if_neg hkn]
      exact ih

theorem lookup_Set_self (h : Header) (key value : String) :
    lookup (h.Set key value) (CanonicalMIMEHeaderKey key) = [value] :=
  lookup_store_self _ _ _

theorem lookup_Set_ne (h : Header) (key value n : String)
    (hn : n ≠ CanonicalMIMEHeaderKey key) :
    lookup (h.Set key value) n = lookup h n :=
  lookup_store_ne _ _ _ _ hn

end Header

/-- The inner loop of lines 184 to 186, after the `Del` of line 183. -/
theorem lookup_addAll_self (w : Header) (key : String) (values : List String) :
    Header.lookup (values.foldl (fun (w : Header) (v : String) => w.Add key v) w)
        (CanonicalMIMEHeaderKey key) =
      Header.lookup w (CanonicalMIMEHeaderKey key) ++ values := by
  induction values generalizing w with
  | nil => simp
  | cons v vs ih =>
    rw [List.foldl_cons, ih]
    simp [Header.Add, Header.lookup_store_self]

theorem lookup_addAll_ne (w : Header) (key n : String) (values : List String)
    (hn : n ≠ CanonicalMIMEHeaderKey key) :
    Header.lookup (values.foldl (fun (w : Header) (v : String) => w.Add key v) w) n =
      Header.lookup w n := by
  induction values generalizing w with
  | nil => simp
  | cons v vs ih =>
    rw [List.foldl_cons, ih]
    simp [Header.Add, Header.lookup_store_ne _ _ _ _ hn]

theorem mergeHeaders_cons (w : Header) (kv : String × List String) (rest : Header) :
    mergeHeaders w (kv :: rest) =
      mergeHeaders
        (kv.2.foldl (fun (w : Header) (v : String) => w.Add kv.1 v) (w.Del kv.1)) rest := rfl

/-- A name that is the canonical form of no key of the handler's map keeps
its values. -/
theorem lookup_mergeHeaders_other (w header : Header) (n : String)
    (hn : ∀ kv ∈ header, CanonicalMIMEHeaderKey kv.1 ≠ n) :
    Header.lookup (mergeHeaders w header) n = Header.lookup w n := by
  induction header generalizing w with
  | nil => rfl
  | cons kv rest ih =>
    rw [mergeHeaders_cons, ih _ (fun kv2 h2 => hn kv2 (List.mem_cons_of_mem _ h2))]
    have hne : n ≠ CanonicalMIMEHeaderKey kv.1 := fun e => hn kv (List.mem_cons_self _ _) e.symm
    rw [lookup_addAll_ne _ _ _ _ hne]
    exact Header.lookup_delete_ne _ _ _ hne

/-- A key of the handler's map whose canonical form no other key shares
ends with exactly the handler's values. -/
theorem lookup_mergeHeaders_key (w header : Header)
    (hnd : (header.map (fun kv => CanonicalMIMEHeaderKey kv.1)).Nodup)
    (key : String) (values : List String) (hmem : (key, values) ∈ header) :
    Header.lookup (mergeHeaders w header) (CanonicalMIMEHeaderKey key) = values := by
  induction header generalizing w with
  | nil => cases hmem
  | cons kv rest ih =>
    rw [List.map_cons, List.nodup_cons] at hnd
    rw [mergeHeaders_cons]
    rcases List.mem_cons.mp hmem with heq | hrest
    · subst heq
      rw [lookup_mergeHeaders_other]
      · rw [lookup_addAll_self]
        simp [Header.Del, Header.lookup_delete_self]
      · intro kv2 h2 e
        exact hnd.1 (List.mem_map.mpr ⟨kv2, h2, e⟩)
    · exact ih _ hnd.2 hrest

/-! ## lemmas: types and `Marshaled` -/

theorem base_kind_ne_ptr (k : BaseKind) : Kind.Ptr ≠ k.toKind := by
  cases k <;> simp [BaseKind.toKind]

theorem base_kind_ne_func (k : BaseKind) : Kind.Func ≠ k.toKind := by
  cases k <;> simp [BaseKind.toKind]

theorem elem_kind_ne_func (k : ElemKind) : Kind.Func ≠ k.toKind := by
  cases k <;> simp [ElemKind.toKind]

theorem implements_emptyInterface (t : GoType) : t.Implements emptyInterface = true := by
  simp [GoType.Implements, emptyInterface, GoType.methods]

theorem Marshaled_func (s n : String) (ms : List String) (a b c : GoType)
    (tail outs : List GoType) (call : List GoValue → Except Panic HandlerResult)
    (ht : tail.length ≤ 1) :
    Marshaled (some ⟨.func s n ms (a :: b :: c :: tail) outs, call⟩) =
      if "*url.URL" ≠ a.string then
        .error (.marshalerError ("type of first argument was " ++ a.string ++ ", not *url.URL"))
      else if "http.Header" ≠ b.string then
        .error (.marshalerError
          ("type of second argument was " ++ b.string ++ ", not http.Header"))
      else checkResults ⟨.func s n ms (a :: b :: c :: tail) outs, call⟩ outs := by
  have hi := implements_emptyInterface
  rcases tail with _ | ⟨e, _ | ⟨f, r⟩⟩
  · rcases outs with _ | ⟨o0, _ | ⟨o1, _ | ⟨o2, _ | ⟨o3, _ | ⟨o4, orest⟩⟩⟩⟩⟩ <;>
      by_cases ha : "*url.URL" = a.string <;> by_cases hb : "http.Header" = b.string <;>
      simp [Marshaled, GoType.kind, GoType.NumIn, GoType.In, GoType.Out, GoType.NumOut,
          ha, hb, hi, checkResults]
  · rcases outs with _ | ⟨o0, _ | ⟨o1, _ | ⟨o2, _ | ⟨o3, _ | ⟨o4, orest⟩⟩⟩⟩⟩ <;>
      by_cases ha : "*url.URL" = a.string <;> by_cases hb : "http.Header" = b.string <;>
      simp [Marshaled, GoType.kind, GoType.NumIn, GoType.In, GoType.Out, GoType.NumOut,
          ha, hb, hi, checkResults]
  · simp at ht

/-- A function type that `Marshaled` accepts has three or four parameters,
and the adapter wraps the value it was given. -/
theorem Marshaled_ok_shape (i : Option Boxed) (m : XMLMarshaler)
    (hM : Marshaled i = .ok m) :
    ∃ s n ms a b c tail outs,
      m.v.typ = .func s n ms (a :: b :: c :: tail) outs ∧ tail.length ≤ 1 ∧
      i = some m.v := by
  cases i with
  | none => simp [Marshaled] at hM
  | some d =>
    obtain ⟨t, call⟩ := d
    cases t with
    | base k s n ms =>
      have hk := base_kind_ne_func k
      simp [Marshaled, GoType.kind, hk] at hM
    | ref k s n ms e =>
      have hk := elem_kind_ne_func k
      simp [Marshaled, GoType.kind, hk] at hM
    | func s n ms ins outs =>
      rcases ins with _ | ⟨a, _ | ⟨b, _ | ⟨c, tail⟩⟩⟩
      · simp [Marshaled, GoType.kind, GoType.NumIn] at hM
      · simp [Marshaled, GoType.kind, GoType.NumIn] at hM
      · simp [Marshaled, GoType.kind, GoType.NumIn] at hM
      · by_cases ht : tail.length ≤ 1
        · rw [Marshaled_func s n ms a b c tail outs call ht] at hM
          have hm : m = ⟨⟨.func s n ms (a :: b :: c :: tail) outs, call⟩⟩ := by
            split_ifs at hM
            unfold checkResults at hM
            split at hM
            · split_ifs at hM
              exact (Except.ok.inj hM).symm
            · cases hM
          subst hm
          exact ⟨s, n, ms, a, b, c, tail, outs, rfl, ht, rfl⟩
        · have hlen2 : 3 ≠ tail.length + 1 + 1 + 1 ∧ 4 ≠ tail.length + 1 + 1 + 1 := by omega
          simp [Marshaled, GoType.kind, GoType.NumIn, hlen2] at hM

/-- The checks of `Marshaled`, rule by rule, for a value with a dynamic type. -/
theorem Marshaled_rules (d : Boxed) :
    (¬ Rule1 d.typ →
      Marshaled (some d) =
        .error (.marshalerError ("kind was " ++ kindString d.typ.kind ++ ", not Func"))) ∧
    (Rule1 d.typ → ¬ Rule2 d.typ →
      Marshaled (some d) =
        .error (.marshalerError
          ("input arity was " ++ toString d.typ.params.length ++ ", not 3 or 4"))) ∧
    (Rule1 d.typ → Rule2 d.typ → ¬ Rule3 d.typ →
      ∃ p, d.typ.params.get? 0 = some p ∧
        Marshaled (some d) =
          .error (.marshalerError
            ("type of first argument was " ++ p.string ++ ", not *url.URL"))) ∧
    (Rule1 d.typ → Rule2 d.typ → Rule3 d.typ → ¬ Rule4 d.typ →
      ∃ p, d.typ.params.get? 1 = some p ∧
        Marshaled (some d) =
          .error (.marshalerError
            ("type of second argument was " ++ p.string ++ ", not http.Header"))) ∧
    (Rule1 d.typ → Rule2 d.typ → Rule5 d.typ) ∧
    (Rule1 d.typ → Rule2 d.typ → Rule3 d.typ → Rule4 d.typ → ¬ Rule6 d.typ →
      (d.typ.results.length ≠ 4 ∧
        Marshaled (some d) =
          .error (.marshalerError
            ("output arity was " ++ toString d.typ.results.length ++ ", not 4"))) ∨
      (∃ o0 o1 o2 o3, d.typ.results = [o0, o1, o2, o3] ∧
        ((o0.kind ≠ Kind.Int ∧
          Marshaled (some d) =
            .error (.marshalerError
              ("type of first return value was " ++ o0.string ++ ", not int"))) ∨
         (o0.kind = Kind.Int ∧ o1.string ≠ "http.Header" ∧
          Marshaled (some d) =
            .error (.marshalerError
              ("type of second return value was " ++ o1.string ++ ", not http.Header"))) ∨
         (o0.kind = Kind.Int ∧ o1.string = "http.Header" ∧ o3.string ≠ "error" ∧
          Marshaled (some d) =
            .error (.marshalerError
              ("type of fourth return value was " ++ o3.string ++ ", not error")))))) ∧
    (Rule1 d.typ → Rule2 d.typ → Rule3 d.typ → Rule4 d.typ → Rule5 d.typ → Rule6 d.typ →
      Marshaled (some d) = .ok { v := d }) ∧
    (∀ msg, Marshaled (some d) ≠ .error (.runtime msg)) := by
  obtain ⟨t, call⟩ := d
  cases t with
  | base k s n ms =>
    have hk := base_kind_ne_func k
    have hk2 : ¬ k.toKind = Kind.Func := fun e => hk e.symm
    simp [Rule1, Rule2, GoType.kind, hk2, Marshaled, hk, GoType.params]
  | ref k s n ms e =>
    have hk := elem_kind_ne_func k
    have hk2 : ¬ k.toKind = Kind.Func := fun e => hk e.symm
    simp [Rule1, Rule2, GoType.kind, hk2, Marshaled, hk, GoType.params]
  | func s n ms ins outs =>
    have hi := implements_emptyInterface
    rcases ins with _ | ⟨a, _ | ⟨b, _ | ⟨c, tail⟩⟩⟩
    · simp [Rule1, Rule2, GoType.kind, Marshaled, GoType.params, GoType.NumIn]
    · simp [Rule1, Rule2, GoType.kind, Marshaled, GoType.params, GoType.NumIn]
    · simp [Rule1, Rule2, GoType.kind, Marshaled, GoType.params, GoType.NumIn]
    · by_cases ht : tail.length ≤ 1
      · have h3 : Rule3 (.func s n ms (a :: b :: c :: tail) outs) ↔ a.string = "*url.URL" := by
          simp [Rule3, GoType.params]
        have h4 : Rule4 (.func s n ms (a :: b :: c :: tail) outs) ↔ b.string = "http.Header" := by
          simp [Rule4, GoType.params]
        have h5 : Rule5 (.func s n ms (a :: b :: c :: tail) outs) := ⟨c, rfl, hi c⟩
        have h2 : Rule2 (.func s n ms (a :: b :: c :: tail) outs) := by
          rcases tail with _ | ⟨e, _ | ⟨f, r⟩⟩
          · exact Or.inl rfl
          · exact Or.inr rfl
          · simp at ht
        have h1 : Rule1 (.func s n ms (a :: b :: c :: tail) outs) := rfl
        simp only [Marshaled_func s n ms a b c tail outs call ht, h1, h2, h3, h4, h5]
        by_cases ha : a.string = "*url.URL"
        · by_cases hb : b.string = "http.Header"
          · rcases outs with _ | ⟨o0, _ | ⟨o1, _ | ⟨o2, _ | ⟨o3, _ | ⟨o4, orest⟩⟩⟩⟩⟩
            · simp [ha, hb, checkResults, Rule6, GoType.results, GoType.params]
            · simp [ha, hb, checkResults, Rule6, GoType.results, GoType.params]
            · simp [ha, hb, checkResults, Rule6, GoType.results, GoType.params]
            · simp [ha, hb, checkResults, Rule6, GoType.results, GoType.params]
            · have h6 : Rule6 (.func s n ms (a :: b :: c :: tail) [o0, o1, o2, o3]) ↔
                  (o0.kind = Kind.Int ∧ o1.string = "http.Header" ∧ o3.string = "error") := by
                constructor
                · rintro ⟨p0, p1, p2, p3, hres, hk, hs1, _, hs3⟩
                  simp only [GoType.results, List.cons.injEq, and_true] at hres
                  obtain ⟨rfl, rfl, rfl, rfl⟩ := hres
                  exact ⟨hk, hs1, hs3⟩
                · rintro ⟨hk, hs1, hs3⟩
                  exact ⟨o0, o1, o2, o3, rfl, hk, hs1, hi o2, hs3⟩
              have hex : ∀ P : GoType → GoType → GoType → GoType → Prop,
                  (∃ p0 p1 p2 p3,
                    (GoType.func s n ms (a :: b :: c :: tail) [o0, o1, o2, o3]).results =
                      [p0, p1, p2, p3] ∧ P p0 p1 p2 p3) ↔ P o0 o1 o2 o3 := by
                intro P
                constructor
                · rintro ⟨p0, p1, p2, p3, hres, hP⟩
                  simp only [GoType.results, List.cons.injEq, and_true] at hres
                  obtain ⟨rfl, rfl, rfl, rfl⟩ := hres
                  exact hP
                · intro hP
                  exact ⟨o0, o1, o2, o3, rfl, hP⟩
              simp only [h6, hex]
              by_cases h0 : o0.kind = Kind.Int
              · have h0b : Kind.Int = o0.kind := h0.symm
                by_cases h1b : o1.string = "http.Header"
                · by_cases h3b : o3.string = "error"
                  · simp [ha, hb, checkResults, GoType.results, h0, h1b, h3b, hi]
                  · have h3c : ¬ "error" = o3.string := fun e => h3b e.symm
                    simp [ha, hb, checkResults, GoType.results, h0, h1b, h3b, h3c, hi]
                · have h1c : ¬ "http.Header" = o1.string := fun e => h1b e.symm
                  simp [ha, hb, checkResults, GoType.results, h0, h1b, h1c, hi]
              · have h0b : ¬ Kind.Int = o0.kind := fun e => h0 e.symm
                simp [ha, hb, checkResults, GoType.results, h0, h0b, hi]
            · simp [ha, hb, checkResults, Rule6, GoType.results, GoType.params]
          · have hb2 : ¬ "http.Header" = b.string := fun e => hb e.symm
            simp [ha, hb, hb2, GoType.params]
        · have ha2 : ¬ "*url.URL" = a.string := fun e => ha e.symm
          simp [ha, ha2, GoType.params]
      · have hlen2 : 3 ≠ tail.length + 1 + 1 + 1 ∧ 4 ≠ tail.length + 1 + 1 + 1 := by omega
        have h1 : Rule1 (.func s n ms (a :: b :: c :: tail) outs) := rfl
        have h2 : ¬ Rule2 (.func s n ms (a :: b :: c :: tail) outs) := by
          simp only [Rule2, GoType.params, List.length_cons]
          omega
        have hM : Marshaled (some ⟨.func s n ms (a :: b :: c :: tail) outs, call⟩) =
            .error (.marshalerError ("input arity was " ++
              toString (a :: b :: c :: tail).length ++ ", not 3 or 4")) := by
          simp [Marshaled, GoType.kind, GoType.NumIn, hlen2]
        simp [h1, h2, hM, GoType.params]

/-- For the nil interface `reflect.TypeOf` returns nil, and `t.Kind()` is a
nil dereference: a run-time panic, not a `MarshalerError`. -/
theorem Marshaled_nil :
    Marshaled none = .error (.runtime "invalid memory address or nil pointer dereference") :=
  rfl

theorem errorField_type_eq (t : GoType) :
    (if Kind.Ptr = t.kind then t.Elem else .ok t) = Except.ok (pointee t) := by
  cases t with
  | base k s n ms => exact if_neg (base_kind_ne_ptr k)
  | ref k s n ms e => cases k <;> simp [GoType.kind, ElemKind.toKind, GoType.Elem, pointee]
  | func s n ms i o => exact if_neg (by simp [GoType.kind])

/-! ## lemmas: the record of a run -/

section
variable (w : Response) (e : Event)

@[simp] theorem events_emit : (w.emit e).events = w.events ++ [e] := rfl
@[simp] theorem header_emit : (w.emit e).header = w.header := rfl
@[simp] theorem panic_emit : (w.emit e).panic = w.panic := rfl
@[simp] theorem events_raise (p : Panic) : (w.raise p).events = w.events := rfl
@[simp] theorem header_raise (p : Panic) : (w.raise p).header = w.header := rfl
@[simp] theorem panic_raise (p : Panic) : (w.raise p).panic = some p := rfl

@[simp] theorem calls_append (a b : List Event) : calls (a ++ b) = calls a ++ calls b := by
  simp [calls]
@[simp] theorem statuses_append (a b : List Event) :
    statuses (a ++ b) = statuses a ++ statuses b := by simp [statuses]
@[simp] theorem headersSent_append (a b : List Event) :
    headersSent (a ++ b) = headersSent a ++ headersSent b := by simp [headersSent]
@[simp] theorem bodyReads_append (a b : List Event) :
    bodyReads (a ++ b) = bodyReads a ++ bodyReads b := by simp [bodyReads]
@[simp] theorem textsWritten_append (a b : List Event) :
    textsWritten (a ++ b) = textsWritten a ++ textsWritten b := by simp [textsWritten]
@[simp] theorem encodeCalls_append (a b : List Event) :
    encodeCalls (a ++ b) = encodeCalls a ++ encodeCalls b := by simp [encodeCalls]
end

theorem Silent.nil : Silent [] := ⟨rfl, rfl, rfl, rfl⟩

theorem calls_cons (e : Event) (es : List Event) : calls (e :: es) = calls [e] ++ calls es :=
  calls_append [e] es

theorem statuses_cons (e : Event) (es : List Event) :
    statuses (e :: es) = statuses [e] ++ statuses es :=
  statuses_append [e] es

theorem headersSent_cons (e : Event) (es : List Event) :
    headersSent (e :: es) = headersSent [e] ++ headersSent es :=
  headersSent_append [e] es

theorem bodyReads_cons (e : Event) (es : List Event) :
    bodyReads (e :: es) = bodyReads [e] ++ bodyReads es :=
  bodyReads_append [e] es

theorem textsWritten_cons (e : Event) (es : List Event) :
    textsWritten (e :: es) = textsWritten [e] ++ textsWritten es :=
  textsWritten_append [e] es

theorem encodeCalls_cons (e : Event) (es : List Event) :
    encodeCalls (e :: es) = encodeCalls [e] ++ encodeCalls es :=
  encodeCalls_append [e] es

theorem Silent.cons_encode (doc : Doc) {es : List Event} (h : Silent es) :
    Silent (.encode doc :: es) :=
  ⟨by rw [calls_cons, h.calls]; rfl, by rw [statuses_cons, h.statuses]; rfl,
   by rw [headersSent_cons, h.headersSent]; rfl, by rw [bodyReads_cons, h.bodyReads]; rfl⟩

theorem Silent.append {a b : List Event} (ha : Silent a) (hb : Silent b) : Silent (a ++ b) :=
  ⟨by simp [ha.calls, hb.calls], by simp [ha.statuses, hb.statuses],
   by simp [ha.headersSent, hb.headersSent], by simp [ha.bodyReads, hb.bodyReads]⟩

/-- The call `w.WriteHeader(status)` is recorded whether or not the writer
accepts the code. -/
theorem WriteHeader_eq (w : Response) (st : Int) :
    w.WriteHeader st =
      { header := w.header,
        events := w.events ++ [.writeHeader st w.header],
        panic :=
          if st < 100 ∨ st > 999 then
            some (.runtime ("invalid WriteHeader code " ++ toString st))
          else w.panic } := by
  unfold Response.WriteHeader
  by_cases hst : st < 100 ∨ st > 999 <;> simp [hst, Response.emit, Response.raise]

theorem andThen_none (w : Response) (k : Response → Response) (h : w.panic = none) :
    w.andThen k = k w := by
  unfold Response.andThen
  rw [h]

theorem andThen_some (w : Response) (k : Response → Response) (p : Panic)
    (h : w.panic = some p) : w.andThen k = w := by
  unfold Response.andThen
  rw [h]

theorem Silent_encodeTail (doc : Doc) : Silent (encodeTail doc) := by
  unfold encodeTail
  by_cases ht : (xmlEncode doc).1 = "" <;> cases he : (xmlEncode doc).2 <;>
    exact ⟨by simp [calls, ht], by simp [statuses, ht], by simp [headersSent, ht],
      by simp [bodyReads, ht]⟩

theorem Encode_eq (w : Response) (doc : Doc) :
    w.Encode doc =
      { header := w.header,
        events := w.events ++ .encode doc :: encodeTail doc,
        panic := w.panic } := by
  unfold Response.Encode encodeTail
  by_cases ht : (xmlEncode doc).1 = "" <;> cases he : (xmlEncode doc).2 <;>
    simp [ht, Response.emit]

theorem errorField_ok (env : Env) (err : GoError) : ∃ e, errorField env err = .ok e := by
  have hu := errorField_type_eq err.typ
  unfold errorField
  split
  · exact ⟨_, rfl⟩
  · split
    · exact ⟨_, rfl⟩
    · simp only [hu]
      split <;> exact ⟨_, rfl⟩

/-- The run of `writeXMLError`: the map is handed to the encoder, which
rejects it; nothing is written to the body and the error is logged. -/
theorem writeXMLError_eq (env : Env) (w : Response) (err : GoError) :
    ∃ e, errorField env err = .ok e ∧
      writeXMLError env w err =
        { header := w.header,
          events := w.events ++
            [ .encode (.mapOf [("description", err.message), ("error", e)]),
              .log "xml: unsupported type: map[string]string\n" ],
          panic := w.panic } := by
  obtain ⟨e, he⟩ := errorField_ok env err
  refine ⟨e, he, ?_⟩
  unfold writeXMLError
  simp only [he]
  rw [Encode_eq]
  rfl

/-- What follows a `WriteHeader` on the error paths: nothing after a panic,
otherwise the run of `writeXMLError`. -/
theorem andThen_writeXMLError (env : Env) (w : Response) (err : GoError) :
    ∃ tail, (w.andThen fun w => writeXMLError env w err) =
        { header := w.header, events := w.events ++ tail, panic := w.panic } ∧
      Silent tail ∧ textsWritten tail = [] ∧
      (w.panic = none → ∃ e, errorField env err = .ok e ∧
        tail = [ .encode (.mapOf [("description", err.message), ("error", e)]),
                 .log "xml: unsupported type: map[string]string\n" ]) := by
  cases hp : w.panic with
  | some p =>
    refine ⟨[], ?_, Silent.nil, rfl, fun h => by cases h⟩
    rw [andThen_some w _ p hp]
    cases w
    simp_all
  | none =>
    obtain ⟨e, he, h⟩ := writeXMLError_eq env w err
    refine ⟨[ .encode (.mapOf [("description", err.message), ("error", e)]),
        .log "xml: unsupported type: map[string]string\n" ], ?_, ⟨rfl, rfl, rfl, rfl⟩, rfl,
      fun _ => ⟨e, he, rfl⟩⟩
    rw [andThen_none w _ hp, h, hp]


/-- The run of `respond`: one `WriteHeader`, with the status and the header
set of the closed forms, then events that are no call, no status and no read
of the body. -/
theorem respond_eq (env : Env) (w : Response) (out : HandlerResult) :
    ∃ tail, Silent tail ∧
      (respond env w out).events =
        w.events ++ .writeHeader (statusWritten out) (headerWritten w.header out) :: tail ∧
      (respond env w out).header = headerWritten w.header out := by
  unfold respond statusWritten headerWritten
  cases herr : out.err with
  | some err =>
    simp only []
    have hW : ∀ st : Int, ∃ tail, Silent tail ∧
        ((w.WriteHeader st).andThen fun w => writeXMLError env w err).events =
          w.events ++ .writeHeader st w.header :: tail ∧
        ((w.WriteHeader st).andThen fun w => writeXMLError env w err).header = w.header := by
      intro st
      obtain ⟨tail, h, hs, _, _⟩ := andThen_writeXMLError env (w.WriteHeader st) err
      refine ⟨tail, hs, ?_, ?_⟩
      · rw [h, WriteHeader_eq]
        simp
      · rw [h, WriteHeader_eq]
    cases hs : err.status with
    | some st => exact hW st
    | none =>
      by_cases hlt : StatusContinue > out.status
      · simpa [hlt] using hW StatusInternalServerError
      · simpa [hlt] using hW out.status
  | none =>
    simp only []
    have hW : ∀ w2 : Response, ∃ tail, Silent tail ∧
        ((w2.WriteHeader out.status).andThen fun w =>
          match out.rs with
          | some v => if StatusNoContent ≠ out.status then w.Encode (.value v) else w
          | none => w).events =
          w2.events ++ .writeHeader out.status w2.header :: tail ∧
        ((w2.WriteHeader out.status).andThen fun w =>
          match out.rs with
          | some v => if StatusNoContent ≠ out.status then w.Encode (.value v) else w
          | none => w).header = w2.header := by
      intro w2
      cases hp : (w2.WriteHeader out.status).panic with
      | some p =>
        rw [andThen_some _ _ p hp]
        exact ⟨[], Silent.nil, by rw [WriteHeader_eq], by rw [WriteHeader_eq]⟩
      | none =>
        rw [andThen_none _ _ hp]
        cases hrs : out.rs with
        | none => exact ⟨[], Silent.nil, by rw [WriteHeader_eq], by rw [WriteHeader_eq]⟩
        | some v =>
          by_cases h204 : StatusNoContent = out.status
          · simp only [h204, ne_eq, not_true_eq_false, if_false]
            exact ⟨[], Silent.nil, by rw [WriteHeader_eq], by rw [WriteHeader_eq]⟩
          · simp only [ne_eq, h204, not_false_eq_true, if_true]
            refine ⟨.encode (.value v) :: encodeTail (.value v), ?_, ?_, ?_⟩
            · exact Silent.cons_encode _ (Silent_encodeTail (.value v))
            · rw [Encode_eq, WriteHeader_eq]
              simp
            · rw [Encode_eq, WriteHeader_eq]
    cases hh : out.header with
    | none => exact hW w
    | some header => exact hW { w with header := mergeHeaders w.header header }

theorem calls_respond (env : Env) (w : Response) (out : HandlerResult) :
    calls (respond env w out).events = calls w.events := by
  obtain ⟨tail, hs, he, _⟩ := respond_eq env w out
  rw [he, calls_append, calls_cons, hs.calls]
  simp [calls]

theorem bodyReads_respond (env : Env) (w : Response) (out : HandlerResult) :
    bodyReads (respond env w out).events = bodyReads w.events := by
  obtain ⟨tail, hs, he, _⟩ := respond_eq env w out
  rw [he, bodyReads_append, bodyReads_cons, hs.bodyReads]
  simp [bodyReads]

theorem statuses_respond (env : Env) (w : Response) (out : HandlerResult) :
    statuses (respond env w out).events = statuses w.events ++ [statusWritten out] := by
  obtain ⟨tail, hs, he, _⟩ := respond_eq env w out
  rw [he, statuses_append, statuses_cons, hs.statuses]
  simp [statuses]

theorem headersSent_respond (env : Env) (w : Response) (out : HandlerResult) :
    headersSent (respond env w out).events =
      headersSent w.events ++ [headerWritten w.header out] := by
  obtain ⟨tail, hs, he, _⟩ := respond_eq env w out
  rw [he, headersSent_append, headersSent_cons, hs.headersSent]
  simp [headersSent]

theorem invoke_cases (env : Env) (m : XMLMarshaler) (w : Response) (r : Request)
    (in2 : GoType) (rq : GoValue) :
    (∃ p, invoke env m w r in2 rq = w.raise p) ∨
    (∃ args, invoke env m w r in2 rq =
      match m.v.call args with
      | .error p => (w.emit (.call args)).raise p
      | .ok out => respond env (w.emit (.call args)) out) := by
  unfold invoke
  split
  · exact Or.inl ⟨_, rfl⟩
  · split
    · exact Or.inl ⟨_, rfl⟩
    · rename_i rq2 _ _ numIn _
      exact Or.inr
        ⟨if 3 = numIn then [GoValue.url r.URL, GoValue.header r.Header, rq2]
          else [GoValue.url r.URL, GoValue.header r.Header, rq2, env.Context], rfl⟩

/-- What `invoke` adds to the record is nothing (a panic before the call)
or starts with the call of the wrapped function. -/
theorem invoke_events (env : Env) (m : XMLMarshaler) (w : Response) (r : Request)
    (in2 : GoType) (rq : GoValue) :
    ∃ tail, (invoke env m w r in2 rq).events = w.events ++ tail ∧
      (tail = [] ∨ ∃ args rest, tail = .call args :: rest) := by
  rcases invoke_cases env m w r in2 rq with ⟨p, hp⟩ | ⟨args, ha⟩
  · exact ⟨[], by rw [hp]; simp, Or.inl rfl⟩
  · rw [ha]
    cases m.v.call args with
    | error p => exact ⟨[.call args], rfl, Or.inr ⟨args, [], rfl⟩⟩
    | ok out =>
      obtain ⟨tail, _, ht, _⟩ := respond_eq env (w.emit (.call args)) out
      refine ⟨.call args ::
        .writeHeader (statusWritten out) (headerWritten (w.emit (.call args)).header out) ::
          tail, ?_, Or.inr ⟨args, _, rfl⟩⟩
      simp only [ht, events_emit, List.append_assoc, List.singleton_append]

/-- The three ways a run that passed negotiation can go: a panic before
anything is sent, a short-circuit (500, 415 or 400) followed by
`writeXMLError`, or the call of the wrapped function. -/
theorem ServeHTTP_cases (env : Env) (m : XMLMarshaler) (h : Header) (r : Request)
    (hacc : acceptXML r = true) :
    ∃ w, Quiet (h.Set "Content-Type" "application/xml") w ∧
      ((∃ p, ServeHTTP env m (Response.init h) r = w.raise p) ∨
       (∃ st err, 100 ≤ st ∧ st ≤ 999 ∧ ServeHTTP env m (Response.init h) r =
          writeXMLError env (w.emit (.writeHeader st w.header)) err) ∨
       (∃ in2 rq, ServeHTTP env m (Response.init h) r = invoke env m w r in2 rq)) := by
  have q0 : Quiet (h.Set "Content-Type" "application/xml")
      { header := h.Set "Content-Type" "application/xml", events := [], panic := none } :=
    ⟨rfl, rfl, rfl, rfl, rfl, rfl, rfl⟩
  have hshort : ∀ (w : Response) (st : Int) (err : GoError), w.panic = none →
      100 ≤ st → st ≤ 999 →
      ((w.WriteHeader st).andThen fun w => writeXMLError env w err) =
        writeXMLError env (w.emit (.writeHeader st w.header)) err := by
    intro w st err hp h1 h2
    have hv : ¬ (st < 100 ∨ st > 999) := by omega
    have hW : w.WriteHeader st = w.emit (.writeHeader st w.header) := by
      rw [WriteHeader_eq]
      simp [hv, Response.emit]
    rw [hW, andThen_none _ _ (by simpa using hp)]
  unfold ServeHTTP
  simp only [hacc, Bool.not_true, Bool.false_eq_true, if_false, Response.init]
  split
  · exact ⟨_, q0, Or.inl ⟨_, rfl⟩⟩
  · split
    · exact ⟨_, q0, Or.inl ⟨_, rfl⟩⟩
    · split
      · split
        · exact ⟨_, q0, Or.inr (Or.inl ⟨500, _, by decide, by decide,
            hshort _ _ _ rfl (by decide) (by decide)⟩)⟩
        · split
          · exact ⟨_, q0, Or.inr (Or.inl ⟨415, _, by decide, by decide,
              hshort _ _ _ rfl (by decide) (by decide)⟩)⟩
          · split
            · refine ⟨_, ?_, Or.inr (Or.inl ⟨400, _, by decide, by decide,
                hshort _ _ _ ?_ (by decide) (by decide)⟩)⟩
              · exact ⟨rfl, rfl, rfl, rfl, rfl, rfl, rfl⟩
              · rfl
            · refine ⟨_, ?_, Or.inr (Or.inr ⟨_, _, rfl⟩)⟩
              exact ⟨rfl, rfl, rfl, rfl, rfl, rfl, rfl⟩
      · split
        · refine ⟨_, ?_, Or.inr (Or.inr ⟨_, _, rfl⟩)⟩
          exact ⟨rfl, rfl, rfl, rfl, rfl, rfl, rfl⟩
        · exact ⟨_, q0, Or.inr (Or.inr ⟨_, _, rfl⟩)⟩

theorem writeXMLError_silent (env : Env) (w : Response) (err : GoError) :
    ∃ tail, (writeXMLError env w err).events = w.events ++ tail ∧ Silent tail ∧
      textsWritten tail = [] ∧ (writeXMLError env w err).header = w.header ∧
      (writeXMLError env w err).panic = w.panic := by
  obtain ⟨e, _, h⟩ := writeXMLError_eq env w err
  rw [h]
  exact ⟨_, rfl, ⟨rfl, rfl, rfl, rfl⟩, rfl, rfl, rfl⟩

/-- The run for a request that fails negotiation. -/
theorem ServeHTTP_rejected (env : Env) (m : XMLMarshaler) (h : Header) (r : Request)
    (hf : acceptXML r = false) :
    ServeHTTP env m (Response.init h) r =
      { header := h.Set "Content-Type" "text/plain",
        events :=
          [ .writeHeader 406 (h.Set "Content-Type" "text/plain"),
            .write ("\"" ++ r.Header.Get "Accept" ++ "\" does not contain \"application/xml\"") ],
        panic := none } := by
  simp [ServeHTTP, hf, Response.init, WriteHeader_eq, StatusNotAcceptable, Response.andThen,
    Response.emit]

/-- When the record of a run shows a call of the wrapped function, the run
is: negotiation passed, nothing was sent before the call, and what follows
the call is `respond` on its results. -/
theorem ServeHTTP_invoked (env : Env) (m : XMLMarshaler) (h : Header) (r : Request)
    (args : List GoValue)
    (hc : args ∈ calls (ServeHTTP env m (Response.init h) r).events) :
    acceptXML r = true ∧
    ∃ w, Quiet (h.Set "Content-Type" "application/xml") w ∧
      ServeHTTP env m (Response.init h) r =
        match m.v.call args with
        | .error p => (w.emit (.call args)).raise p
        | .ok out => respond env (w.emit (.call args)) out := by
  have hacc : acceptXML r = true := by
    by_contra hna
    have hf : acceptXML r = false := by simpa using hna
    rw [ServeHTTP_rejected env m h r hf] at hc
    simp [calls] at hc
  refine ⟨hacc, ?_⟩
  obtain ⟨w, hq, hcase⟩ := ServeHTTP_cases env m h r hacc
  rcases hcase with ⟨p, hp⟩ | ⟨st, err, _, _, he⟩ | ⟨in2, rq, hi⟩
  · rw [hp] at hc
    simp [hq.calls] at hc
  · obtain ⟨tail, ht, hs, _⟩ := writeXMLError_silent env (w.emit (.writeHeader st w.header)) err
    rw [he, ht] at hc
    simp only [events_emit, calls_append, hq.calls, hs.calls] at hc
    simp [calls] at hc
  · rcases invoke_cases env m w r in2 rq with ⟨p, hp⟩ | ⟨args2, ha⟩
    · rw [hi, hp] at hc
      simp [hq.calls] at hc
    · have hargs : args = args2 := by
        rw [hi, ha] at hc
        cases hcall : m.v.call args2 with
        | error p =>
          simp only [hcall, events_raise, events_emit, calls_append, hq.calls] at hc
          simpa [calls] using hc
        | ok out =>
          simp only [hcall, calls_respond, events_emit, calls_append, hq.calls] at hc
          simpa [calls] using hc
      subst hargs
      exact ⟨w, hq, by rw [hi, ha]⟩

theorem head_append {es tail : List Event} (hne : es ≠ []) :
    (es ++ tail).head? = es.head? := by
  cases es with
  | nil => exact absurd rfl hne
  | cons e rest => rfl

theorem head_invoke (env : Env) (m : XMLMarshaler) (w : Response) (r : Request)
    (in2 : GoType) (rq : GoValue) (hne : w.events ≠ []) :
    (invoke env m w r in2 rq).events.head? = w.events.head? := by
  obtain ⟨tail, ht, _⟩ := invoke_events env m w r in2 rq
  rw [ht]
  exact head_append hne

theorem head_invoke_nil (env : Env) (m : XMLMarshaler) (w : Response) (r : Request)
    (in2 : GoType) (rq : GoValue) (hnil : w.events = []) (st : Int) (hdr : Header) :
    (invoke env m w r in2 rq).events.head? ≠ some (.writeHeader st hdr) := by
  obtain ⟨tail, ht, hcase⟩ := invoke_events env m w r in2 rq
  rw [ht, hnil]
  rcases hcase with rfl | ⟨args, rest, rfl⟩ <;> simp

/-- The first event of a short-circuit is its `WriteHeader`, or whatever
came before. -/
theorem head_short (env : Env) (w : Response) (st : Int) (err : GoError) :
    ((w.WriteHeader st).andThen fun w => writeXMLError env w err).events.head? =
      (w.events ++ [Event.writeHeader st w.header]).head? := by
  obtain ⟨tail, h, _⟩ := andThen_writeXMLError env (w.WriteHeader st) err
  rw [h]
  show ((w.WriteHeader st).events ++ tail).head? = _
  rw [WriteHeader_eq]
  exact @head_append (w.events ++ [Event.writeHeader st w.header]) tail (by simp)

/-- The run of `respond` for a nil error: the merge, the `WriteHeader`, and,
when the writer accepted the code, the encoding of a non-nil response value
unless the status is 204. -/
theorem respond_ok (env : Env) (w : Response) (out : HandlerResult)
    (herr : out.err = none) (hp : w.panic = none) :
    respond env w out =
      if out.status < 100 ∨ out.status > 999 then
        { header := headerWritten w.header out,
          events := w.events ++ [.writeHeader out.status (headerWritten w.header out)],
          panic := some (.runtime ("invalid WriteHeader code " ++ toString out.status)) }
      else
        { header := headerWritten w.header out,
          events := w.events ++
            .writeHeader out.status (headerWritten w.header out) ::
              (match out.rs with
               | some v =>
                 if StatusNoContent ≠ out.status then
                   .encode (.value v) :: encodeTail (.value v)
                 else []
               | none => []),
          panic := none } := by
  have hW : ∀ w2 : Response, w2.panic = none →
      ((w2.WriteHeader out.status).andThen fun w =>
        match out.rs with
        | some v => if StatusNoContent ≠ out.status then w.Encode (.value v) else w
        | none => w) =
      if out.status < 100 ∨ out.status > 999 then
        { header := w2.header,
          events := w2.events ++ [.writeHeader out.status w2.header],
          panic := some (.runtime ("invalid WriteHeader code " ++ toString out.status)) }
      else
        { header := w2.header,
          events := w2.events ++
            .writeHeader out.status w2.header ::
              (match out.rs with
               | some v =>
                 if StatusNoContent ≠ out.status then
                   .encode (.value v) :: encodeTail (.value v)
                 else []
               | none => []),
          panic := none } := by
    intro w2 hp2
    by_cases hst : out.status < 100 ∨ out.status > 999
    · rw [if_pos hst, andThen_some _ _ (.runtime ("invalid WriteHeader code " ++
        toString out.status)) (by rw [WriteHeader_eq]; simp [hst]), WriteHeader_eq]
      simp [hst]
    · rw [if_neg hst, andThen_none _ _ (by rw [WriteHeader_eq]; simp [hst, hp2]),
        WriteHeader_eq]
      cases out.rs with
      | none => simp [hst, hp2]
      | some v =>
        by_cases h204 : StatusNoContent = out.status
        · simp [hst, hp2, h204]
        · simp [hst, hp2, h204, Encode_eq]
  unfold respond headerWritten
  simp only [herr]
  cases hh : out.header with
  | none => exact hW w hp
  | some header => exact hW { w with header := mergeHeaders w.header header } hp

theorem encodeCalls_encodeTail (doc : Doc) : encodeCalls (encodeTail doc) = [] := by
  unfold encodeTail
  by_cases ht : (xmlEncode doc).1 = "" <;> cases he : (xmlEncode doc).2 <;>
    simp [encodeCalls, ht]

theorem textsWritten_encodeTail (doc : Doc) :
    textsWritten (encodeTail doc) =
      if (xmlEncode doc).1 = "" then [] else [(xmlEncode doc).1] := by
  unfold encodeTail
  by_cases ht : (xmlEncode doc).1 = "" <;> cases he : (xmlEncode doc).2 <;>
    simp [textsWritten, ht]

/-! ## lemmas: unicode.IsLower on the ASCII letters -/

set_option maxRecDepth 100000 in
theorem Lower_lo : ∀ t ∈ Lower, 97 ≤ t.1 := by
  decide

theorem toNat_of_isLower (c : Char) (h : c.isLower = true) : 97 ≤ c.toNat ∧ c.toNat ≤ 122 := by
  simp only [Char.isLower, ge_iff_le, Bool.and_eq_true, decide_eq_true_eq] at h
  exact h

theorem toNat_of_isUpper (c : Char) (h : c.isUpper = true) : 65 ≤ c.toNat ∧ c.toNat ≤ 90 := by
  simp only [Char.isUpper, ge_iff_le, Bool.and_eq_true, decide_eq_true_eq] at h
  exact h

/-- The letters `a` to `z` are in the range table `unicode.Lower`. -/
theorem IsLower_of_isLower (c : Char) (h : c.isLower = true) : IsLower c = true := by
  obtain ⟨h1, h2⟩ := toNat_of_isLower c h
  unfold IsLower
  rw [List.any_eq_true]
  refine ⟨(0x0061, 0x007A, 1), ?_, ?_⟩
  · unfold Lower
    exact List.mem_cons_self _ _
  · simp [h1, h2, Nat.mod_one]

/-- The letters `A` to `Z` are not in the range table `unicode.Lower`. -/
theorem IsLower_of_isUpper (c : Char) (h : c.isUpper = true) : IsLower c = false := by
  obtain ⟨h1, h2⟩ := toNat_of_isUpper c h
  unfold IsLower
  rw [List.any_eq_false]
  intro t ht
  have := Lower_lo t ht
  have h3 : ¬ t.1 ≤ c.toNat := by omega
  simp [h3]

/-! # The claims -/

/-! ## C1: the status written for a handler error -/

/-- C1, as stated, fails: the wrapped function returns status 200 and an
error that is not an `HTTPEquivError`; 200 is not an error-range code (it is
below 400), and yet `ServeHTTP` writes 200, not 500. -/
theorem ServeHTTP_error_status_counterexample :
    plainError.status = none ∧ ¬ (400 ≤ (200 : Int)) ∧
    statuses (ServeHTTP sampleEnv
      ⟨handlerReturning (handlerType emptyInterface) ⟨200, none, none, some plainError⟩⟩
      (Response.init []) getRequest).events = [200] :=
  ⟨rfl, by decide, rfl⟩

/-- C1 (amended): when the wrapped function was called and returned a
non-nil error, the one status `ServeHTTP` writes is the error's own
`Status()` if the error is an `HTTPEquivError`; otherwise the status the
function returned if that status is not below 100 (`http.StatusContinue`);
otherwise 500.  In particular an error whose `Status()` is 404 gives 404
whatever status the function returned. -/
theorem ServeHTTP_error_status (env : Env) (m : XMLMarshaler) (h : Header) (r : Request)
    (args : List GoValue) (out : HandlerResult) (err : GoError)
    (hc : args ∈ calls (ServeHTTP env m (Response.init h) r).events)
    (hout : m.v.call args = .ok out) (herr : out.err = some err) :
    (∀ st, err.status = some st →
      statuses (ServeHTTP env m (Response.init h) r).events = [st]) ∧
    (err.status = none → 100 ≤ out.status →
      statuses (ServeHTTP env m (Response.init h) r).events = [out.status]) ∧
    (err.status = none → out.status < 100 →
      statuses (ServeHTTP env m (Response.init h) r).events = [500]) ∧
    (err.status = some 404 →
      statuses (ServeHTTP env m (Response.init h) r).events = [404]) := by
  obtain ⟨_, w, hq, hS⟩ := ServeHTTP_invoked env m h r args hc
  rw [hout] at hS
  simp only [] at hS
  have hst : statuses (ServeHTTP env m (Response.init h) r).events =
      [match err.status with
       | some st => st
       | none =>
         if StatusContinue > out.status then StatusInternalServerError else out.status] := by
    rw [hS, statuses_respond]
    simp only [events_emit, statuses_append, hq.statuses, statusWritten, herr]
    rfl
  refine ⟨?_, ?_, ?_, ?_⟩
  · intro st hs
    rw [hst, hs]
  · intro hs hge
    have hnlt : ¬ StatusContinue > out.status := by
      simp only [StatusContinue]; omega
    rw [hst, hs]
    simp only [hnlt, if_false]
  · intro hs hlt
    have hgt : StatusContinue > out.status := by
      simp only [StatusContinue]; omega
    rw [hst, hs]
    simp only [hgt, if_true, StatusInternalServerError]
  · intro hs
    rw [hst, hs]

/-- C1 (amended), on a function that returns status 200 and an error with
`Status()` 404. -/
theorem ServeHTTP_error_status_witness :
    statuses (ServeHTTP sampleEnv
      ⟨handlerReturning (handlerType emptyInterface) ⟨200, none, none, some notFoundError⟩⟩
      (Response.init []) getRequest).events = [404] :=
  (ServeHTTP_error_status sampleEnv
    ⟨handlerReturning (handlerType emptyInterface) ⟨200, none, none, some notFoundError⟩⟩
    [] getRequest [.url "/things", .header [], .nilRequest]
    ⟨200, none, none, some notFoundError⟩ notFoundError
    (List.mem_singleton.mpr rfl) rfl rfl).2.2.2 rfl

/-! ## C2: content negotiation -/

/-- C2: `acceptXML(r)` is true if and only if the Accept value of the
request is empty, or contains `*/*`, or contains `application/xml`; so a
request without an Accept header passes, and a request whose Accept value is
exactly `application/json` does not. -/
theorem acceptXML_spec (r : Request) :
    (acceptXML r = true ↔
      (r.Header.Get "Accept" = "" ∨
       (∃ pre post : String, r.Header.Get "Accept" = pre ++ "*/*" ++ post) ∨
       (∃ pre post : String, r.Header.Get "Accept" = pre ++ "application/xml" ++ post))) ∧
    (Header.lookup r.Header "Accept" = [] → acceptXML r = true) ∧
    (r.Header.Get "Accept" = "application/json" → acceptXML r = false) := by
  refine ⟨acceptXML_eq_true_iff r, ?_, ?_⟩
  · intro habs
    have hget : r.Header.Get "Accept" = "" := by
      have hc : CanonicalMIMEHeaderKey "Accept" = "Accept" := by decide
      simp [Header.Get, hc, habs]
    simp [acceptXML, hget]
  · intro hjson
    unfold acceptXML
    rw [hjson]
    decide

/-- C2, on a request without headers and on a request that accepts JSON only. -/
theorem acceptXML_spec_witness :
    acceptXML getRequest = true ∧ acceptXML jsonRequest = false :=
  ⟨(acceptXML_spec getRequest).2.1 rfl, (acceptXML_spec jsonRequest).2.2 rfl⟩

/-! ## C3: the 406 response -/

/-- C3: for a request whose Accept value is non-empty and contains neither
`*/*` nor `application/xml`, whatever the method, the Content-Type, the body
and the wrapped function, `ServeHTTP` sets the Content-Type of the response to
`text/plain`, calls `WriteHeader(406)` once, writes the Accept value in double
quotes followed by ` does not contain "application/xml"`, and does nothing
else: no call of the wrapped function, no read of the body, no XML document. -/
theorem ServeHTTP_not_acceptable (env : Env) (m : XMLMarshaler) (h : Header) (r : Request)
    (hne : r.Header.Get "Accept" ≠ "")
    (hstar : ¬ ∃ pre post : String, r.Header.Get "Accept" = pre ++ "*/*" ++ post)
    (hxml : ¬ ∃ pre post : String, r.Header.Get "Accept" = pre ++ "application/xml" ++ post) :
    ServeHTTP env m (Response.init h) r =
      { header := h.Set "Content-Type" "text/plain",
        events :=
          [ .writeHeader 406 (h.Set "Content-Type" "text/plain"),
            .write ("\"" ++ r.Header.Get "Accept" ++ "\" does not contain \"application/xml\"") ],
        panic := none } ∧
    Header.lookup (h.Set "Content-Type" "text/plain") "Content-Type" = ["text/plain"] ∧
    statuses (ServeHTTP env m (Response.init h) r).events = [406] ∧
    calls (ServeHTTP env m (Response.init h) r).events = [] ∧
    bodyReads (ServeHTTP env m (Response.init h) r).events = [] ∧
    encodeCalls (ServeHTTP env m (Response.init h) r).events = [] ∧
    textsWritten (ServeHTTP env m (Response.init h) r).events =
      ["\"" ++ r.Header.Get "Accept" ++ "\" does not contain \"application/xml\""] := by
  have hacc : acceptXML r = false := by
    cases hb : acceptXML r with
    | false => rfl
    | true =>
      rcases (acceptXML_eq_true_iff r).mp hb with h1 | h2 | h3
      · exact absurd h1 hne
      · exact absurd h2 hstar
      · exact absurd h3 hxml
  have hS := ServeHTTP_rejected env m h r hacc
  refine ⟨hS, ?_, ?_, ?_, ?_, ?_, ?_⟩
  · exact Header.lookup_Set_self h "Content-Type" "text/plain"
  all_goals rw [hS]; rfl

/-- C3, on a GET request that accepts JSON only. -/
theorem ServeHTTP_not_acceptable_witness :
    statuses (ServeHTTP sampleEnv ⟨handlerReturning (handlerType emptyInterface)
        ⟨200, none, none, none⟩⟩ (Response.init []) jsonRequest).events = [406] ∧
    textsWritten (ServeHTTP sampleEnv ⟨handlerReturning (handlerType emptyInterface)
        ⟨200, none, none, none⟩⟩ (Response.init []) jsonRequest).events =
      ["\"application/json\" does not contain \"application/xml\""] :=
  ⟨(ServeHTTP_not_acceptable sampleEnv _ [] jsonRequest (by decide)
      (by rw [← Contains_iff]; decide) (by rw [← Contains_iff]; decide)).2.2.1, rfl⟩

/-! ## C4: the merge of the handler's headers -/

/-- C4, as stated, fails: the handler's map holds the two keys `x-foo` and
`X-Foo`, which have the same canonical form.  Whichever of the two `range`
visits first, the response ends with the values of the other one only, so a
name present in the handler's map (`x-foo` in the first order, `X-Foo` in the
second) does not have the handler's values for it. -/
theorem ServeHTTP_header_merge_counterexample :
    CanonicalMIMEHeaderKey "x-foo" = "X-Foo" ∧ CanonicalMIMEHeaderKey "X-Foo" = "X-Foo" ∧
    Header.lookup (ServeHTTP sampleEnv
      ⟨handlerReturning (handlerType emptyInterface)
        ⟨200, some [("x-foo", ["a"]), ("X-Foo", ["b"])], none, none⟩⟩
      (Response.init [("X-Foo", ["z"])]) getRequest).header "X-Foo" = ["b"] ∧
    Header.lookup (ServeHTTP sampleEnv
      ⟨handlerReturning (handlerType emptyInterface)
        ⟨200, some [("X-Foo", ["b"]), ("x-foo", ["a"])], none, none⟩⟩
      (Response.init [("X-Foo", ["z"])]) getRequest).header "X-Foo" = ["a"] :=
  ⟨by decide, by decide, rfl, rfl⟩

/-- C4 (amended): when the wrapped function was called and returned a nil
error and a non-nil header map no two keys of which have the same canonical
form, then after the merge each key of the handler's map has in the response,
under its canonical form, exactly the handler's values for it, in the
handler's order, and none of the values held before; a name that is the
canonical form of no key of the handler's map keeps the values it had before
the merge (those of the response header set after `ServeHTTP` set the
Content-Type); and the status is written with the merged header set. -/
theorem ServeHTTP_header_merge (env : Env) (m : XMLMarshaler) (h : Header) (r : Request)
    (args : List GoValue) (out : HandlerResult) (header : Header)
    (hc : args ∈ calls (ServeHTTP env m (Response.init h) r).events)
    (hout : m.v.call args = .ok out) (herr : out.err = none)
    (hhdr : out.header = some header)
    (hnd : (header.map (fun kv => CanonicalMIMEHeaderKey kv.1)).Nodup) :
    (∀ key values, (key, values) ∈ header →
      Header.lookup (ServeHTTP env m (Response.init h) r).header
        (CanonicalMIMEHeaderKey key) = values) ∧
    (∀ n, (∀ kv ∈ header, CanonicalMIMEHeaderKey kv.1 ≠ n) →
      Header.lookup (ServeHTTP env m (Response.init h) r).header n =
        Header.lookup (h.Set "Content-Type" "application/xml") n) ∧
    headersSent (ServeHTTP env m (Response.init h) r).events =
      [(ServeHTTP env m (Response.init h) r).header] := by
  obtain ⟨_, w, hq, hS⟩ := ServeHTTP_invoked env m h r args hc
  rw [hout] at hS
  simp only [] at hS
  obtain ⟨tail, _, _, hH⟩ := respond_eq env (w.emit (.call args)) out
  have hhw : headerWritten (w.emit (.call args)).header out =
      mergeHeaders (h.Set "Content-Type" "application/xml") header := by
    simp only [headerWritten, herr, hhdr, header_emit, hq.header]
  have hfinal : (ServeHTTP env m (Response.init h) r).header =
      mergeHeaders (h.Set "Content-Type" "application/xml") header := by
    rw [hS, hH, hhw]
  refine ⟨?_, ?_, ?_⟩
  · intro key values hmem
    rw [hfinal]
    exact lookup_mergeHeaders_key _ header hnd key values hmem
  · intro n hn
    rw [hfinal]
    exact lookup_mergeHeaders_other _ header n hn
  · rw [hfinal, hS, headersSent_respond, hhw]
    simp only [events_emit, headersSent_append, hq.headersSent]
    rfl

/-- C4 (amended), on the example of the specification: the handler sets
`X-Foo: [a]`, the response already held `X-Foo: [z]`. -/
theorem ServeHTTP_header_merge_witness :
    Header.lookup (ServeHTTP sampleEnv
      ⟨handlerReturning (handlerType emptyInterface)
        ⟨200, some [("X-Foo", ["a"])], none, none⟩⟩
      (Response.init [("X-Foo", ["z"])]) getRequest).header
      (CanonicalMIMEHeaderKey "X-Foo") = ["a"] :=
  (ServeHTTP_header_merge sampleEnv
    ⟨handlerReturning (handlerType emptyInterface) ⟨200, some [("X-Foo", ["a"])], none, none⟩⟩
    [("X-Foo", ["z"])] getRequest [.url "/things", .header [], .nilRequest]
    ⟨200, some [("X-Foo", ["a"])], none, none⟩ [("X-Foo", ["a"])]
    (List.mem_singleton.mpr rfl) rfl rfl rfl (by decide)).1 "X-Foo" ["a"]
    (List.mem_singleton.mpr rfl)

/-! ## C5: the construction rules -/

/-- C5, as stated, fails.  The first result of the function type below is
the defined type `main.Code` (`type Code int`), which is not the type `int`:
it prints as `main.Code`.  Its kind is int, which is all that `Marshaled`
tests, so the function is accepted and wrapped, although its results are not
of the shape (int, http.Header, any, error).  And for the nil interface value
`Marshaled` does not fail with a `MarshalerError`: `reflect.TypeOf(nil)` is
nil and `t.Kind()` is a nil pointer dereference. -/
theorem Marshaled_spec_counterexample :
    codeHandlerType.results = [codeType, headerType, emptyInterface, errorType] ∧
    codeType.string = "main.Code" ∧ intType.string = "int" ∧
    codeType.kind = Kind.Int ∧
    Marshaled (some (handlerReturning codeHandlerType ⟨200, none, none, none⟩)) =
      .ok ⟨handlerReturning codeHandlerType ⟨200, none, none, none⟩⟩ ∧
    Marshaled none = .error (.runtime "invalid memory address or nil pointer dereference") :=
  ⟨rfl, rfl, rfl, rfl, rfl, rfl⟩

/-- C5 (amended): for a non-nil value `i`, `Marshaled(i)` returns the adapter
that wraps `i` when the type of `i` satisfies all six construction rules as
`Marshaled` tests them through `reflect`, and panics with a `MarshalerError`
when it violates at least one.  As tested, rule 3 is that the type of
parameter 1 prints as `*url.URL`, rule 4 that the type of parameter 2 prints
as `http.Header`, and rule 6 that there are exactly 4 results, the first of
kind int (the type `int` or a defined type whose underlying type is `int`),
the second of a type that prints as `http.Header`, the fourth of a type that
prints as `error`.  The error names the first violated rule, in the order of
the checks, and what was found instead: the kind when `i` is not a function
(rule 1), the number of parameters when it is not 3 or 4 (rule 2), the type of
parameter 1 (rule 3), the type of parameter 2 (rule 4), and for rule 6 the
number of results when it is not 4, else the first of the result types that
fails its test.  Rule 5 holds for every third parameter.  No check indexes a
parameter or a result that the type does not have: for a non-nil `i`,
`Marshaled` does not end in a run-time panic. -/
theorem Marshaled_spec (d : Boxed) :
    (Conforms d.typ → Marshaled (some d) = .ok { v := d }) ∧
    (¬ Conforms d.typ → ∃ msg, Marshaled (some d) = .error (.marshalerError msg)) ∧
    (¬ Rule1 d.typ →
      Marshaled (some d) =
        .error (.marshalerError ("kind was " ++ kindString d.typ.kind ++ ", not Func"))) ∧
    (Rule1 d.typ → ¬ Rule2 d.typ →
      Marshaled (some d) =
        .error (.marshalerError
          ("input arity was " ++ toString d.typ.params.length ++ ", not 3 or 4"))) ∧
    (Rule1 d.typ → Rule2 d.typ → ¬ Rule3 d.typ →
      ∃ p, d.typ.params.get? 0 = some p ∧
        Marshaled (some d) =
          .error (.marshalerError
            ("type of first argument was " ++ p.string ++ ", not *url.URL"))) ∧
    (Rule1 d.typ → Rule2 d.typ → Rule3 d.typ → ¬ Rule4 d.typ →
      ∃ p, d.typ.params.get? 1 = some p ∧
        Marshaled (some d) =
          .error (.marshalerError
            ("type of second argument was " ++ p.string ++ ", not http.Header"))) ∧
    (Rule1 d.typ → Rule2 d.typ → Rule5 d.typ) ∧
    (Rule1 d.typ → Rule2 d.typ → Rule3 d.typ → Rule4 d.typ → ¬ Rule6 d.typ →
      (d.typ.results.length ≠ 4 ∧
        Marshaled (some d) =
          .error (.marshalerError
            ("output arity was " ++ toString d.typ.results.length ++ ", not 4"))) ∨
      (∃ o0 o1 o2 o3, d.typ.results = [o0, o1, o2, o3] ∧
        ((o0.kind ≠ Kind.Int ∧
          Marshaled (some d) =
            .error (.marshalerError
              ("type of first return value was " ++ o0.string ++ ", not int"))) ∨
         (o0.kind = Kind.Int ∧ o1.string ≠ "http.Header" ∧
          Marshaled (some d) =
            .error (.marshalerError
              ("type of second return value was " ++ o1.string ++ ", not http.Header"))) ∨
         (o0.kind = Kind.Int ∧ o1.string = "http.Header" ∧ o3.string ≠ "error" ∧
          Marshaled (some d) =
            .error (.marshalerError
              ("type of fourth return value was " ++ o3.string ++ ", not error")))))) ∧
    (Rule1 d.typ → Rule2 d.typ → Rule3 d.typ → Rule4 d.typ → Rule5 d.typ → Rule6 d.typ →
      Marshaled (some d) = .ok { v := d }) ∧
    (∀ msg, Marshaled (some d) ≠ .error (.runtime msg)) := by
  obtain ⟨h1, h2, h3, h4, h5, h6, hok, hrt⟩ := Marshaled_rules d
  refine ⟨?_, ?_, h1, h2, h3, h4, h5, h6, hok, hrt⟩
  · rintro ⟨r1, r2, r3, r4, r5, r6⟩
    exact hok r1 r2 r3 r4 r5 r6
  · intro hnc
    by_cases r1 : Rule1 d.typ
    · by_cases r2 : Rule2 d.typ
      · by_cases r3 : Rule3 d.typ
        · by_cases r4 : Rule4 d.typ
          · by_cases r6 : Rule6 d.typ
            · exact absurd ⟨r1, r2, r3, r4, h5 r1 r2, r6⟩ hnc
            · rcases h6 r1 r2 r3 r4 r6 with ⟨_, hm⟩ | ⟨o0, o1, o2, o3, _, hcase⟩
              · exact ⟨_, hm⟩
              · rcases hcase with ⟨_, hm⟩ | ⟨_, _, hm⟩ | ⟨_, _, _, hm⟩
                · exact ⟨_, hm⟩
                · exact ⟨_, hm⟩
                · exact ⟨_, hm⟩
          · obtain ⟨p, _, hm⟩ := h4 r1 r2 r3 r4
            exact ⟨_, hm⟩
        · obtain ⟨p, _, hm⟩ := h3 r1 r2 r3
          exact ⟨_, hm⟩
      · exact ⟨_, h2 r1 r2⟩
    · exact ⟨_, h1 r1⟩

/-- C5 (amended), on a conforming function type and on a value of type `int`. -/
theorem Marshaled_spec_witness :
    Marshaled (some (handlerReturning (handlerType requestPointer) ⟨200, none, none, none⟩)) =
      .ok ⟨handlerReturning (handlerType requestPointer) ⟨200, none, none, none⟩⟩ ∧
    Marshaled (some (handlerReturning intType ⟨200, none, none, none⟩)) =
      .error (.marshalerError "kind was int, not Func") :=
  ⟨(Marshaled_spec (handlerReturning (handlerType requestPointer)
      ⟨200, none, none, none⟩)).1
      ⟨rfl, Or.inl rfl, ⟨urlPointer, rfl, rfl⟩, ⟨headerType, rfl, rfl⟩,
        ⟨requestPointer, rfl, rfl⟩,
        ⟨intType, headerType, emptyInterface, errorType, rfl, rfl, rfl, rfl, rfl⟩⟩,
   (Marshaled_spec (handlerReturning intType ⟨200, none, none, none⟩)).2.2.1
      (by simp [Rule1, handlerReturning, intType, GoType.kind, BaseKind.toKind])⟩

/-! ## C6: the Content-Type of the response -/

/-- C6, as stated, fails on the success path: the wrapped function returns
a nil error and the header map `Content-Type: [text/html]`; the merge replaces
the Content-Type, and the status is written with `text/html`. -/
theorem ServeHTTP_content_type_counterexample :
    acceptXML getRequest = true ∧
    (ServeHTTP sampleEnv
      ⟨handlerReturning (handlerType emptyInterface)
        ⟨200, some [("Content-Type", ["text/html"])], none, none⟩⟩
      (Response.init []) getRequest).events =
      [ .call [.url "/things", .header [], .nilRequest],
        .writeHeader 200 [("Content-Type", ["text/html"])] ] ∧
    Header.lookup [("Content-Type", ["text/html"])] "Content-Type" ≠ ["application/xml"] :=
  ⟨rfl, rfl, by decide⟩

/-- C6 (amended): for a request that passes negotiation, the header set
with which any status is written holds the single Content-Type value
`application/xml`: on the 500, 415 and 400 short-circuits and on the
handler-error path always, and on the success path provided no key of the
handler's header map has the canonical form `Content-Type`. -/
theorem ServeHTTP_content_type (env : Env) (m : XMLMarshaler) (h : Header) (r : Request)
    (hacc : acceptXML r = true)
    (hh : ∀ args out header,
      args ∈ calls (ServeHTTP env m (Response.init h) r).events →
      m.v.call args = .ok out → out.err = none → out.header = some header →
      ∀ kv ∈ header, CanonicalMIMEHeaderKey kv.1 ≠ "Content-Type") :
    ∀ hdr ∈ headersSent (ServeHTTP env m (Response.init h) r).events,
      Header.lookup hdr "Content-Type" = ["application/xml"] := by
  have hct : Header.lookup (h.Set "Content-Type" "application/xml") "Content-Type" =
      ["application/xml"] := Header.lookup_Set_self h "Content-Type" "application/xml"
  obtain ⟨w, hq, hcase⟩ := ServeHTTP_cases env m h r hacc
  rcases hcase with ⟨p, hp⟩ | ⟨st, err, _, _, he⟩ | ⟨in2, rq, hi⟩
  · intro hdr hmem
    rw [hp] at hmem
    simp [hq.headersSent] at hmem
  · intro hdr hmem
    obtain ⟨tail, ht, hs, _⟩ := writeXMLError_silent env (w.emit (.writeHeader st w.header)) err
    rw [he, ht] at hmem
    simp only [events_emit, headersSent_append, hq.headersSent, hs.headersSent,
      hq.header] at hmem
    simp only [headersSent, List.filterMap_cons, List.filterMap_nil, List.nil_append,
      List.append_nil, List.mem_singleton] at hmem
    rw [hmem]
    exact hct
  · rcases invoke_cases env m w r in2 rq with ⟨p, hp⟩ | ⟨args, ha⟩
    · intro hdr hmem
      rw [hi, hp] at hmem
      simp [hq.headersSent] at hmem
    · cases hcall : m.v.call args with
      | error p =>
        intro hdr hmem
        rw [hi, ha, hcall] at hmem
        simp only [events_raise, events_emit, headersSent_append, hq.headersSent] at hmem
        simp [headersSent] at hmem
      | ok out =>
        have hS : ServeHTTP env m (Response.init h) r =
            respond env (w.emit (.call args)) out := by rw [hi, ha, hcall]
        have hmemc : args ∈ calls (ServeHTTP env m (Response.init h) r).events := by
          rw [hS, calls_respond]
          simp only [events_emit, calls_append, hq.calls]
          simp [calls]
        intro hdr hmem
        rw [hS, headersSent_respond] at hmem
        simp only [events_emit, header_emit, headersSent_append, hq.headersSent,
          hq.header] at hmem
        have hhdr : hdr = headerWritten (h.Set "Content-Type" "application/xml") out := by
          simpa [headersSent] using hmem
        rw [hhdr]
        unfold headerWritten
        cases herr : out.err with
        | some err => exact hct
        | none =>
          cases hoh : out.header with
          | none => exact hct
          | some header =>
            simp only []
            rw [lookup_mergeHeaders_other _ header "Content-Type"
              (hh args out header hmemc hcall herr hoh)]
            exact hct

/-- C6 (amended), on a function that returns status 200 and the header map
`X-Foo: [a]`: the status is written with Content-Type `application/xml`. -/
theorem ServeHTTP_content_type_witness :
    statuses (ServeHTTP sampleEnv
      ⟨handlerReturning (handlerType emptyInterface)
        ⟨200, some [("X-Foo", ["a"])], none, none⟩⟩
      (Response.init []) getRequest).events = [200] ∧
    ∀ hdr ∈ headersSent (ServeHTTP sampleEnv
      ⟨handlerReturning (handlerType emptyInterface)
        ⟨200, some [("X-Foo", ["a"])], none, none⟩⟩
      (Response.init []) getRequest).events,
      Header.lookup hdr "Content-Type" = ["application/xml"] :=
  ⟨rfl, ServeHTTP_content_type sampleEnv
    ⟨handlerReturning (handlerType emptyInterface) ⟨200, some [("X-Foo", ["a"])], none, none⟩⟩
    [] getRequest rfl (fun _ out header _ hcall _ hhdr kv hkv => by
      have ho : out = ⟨200, some [("X-Foo", ["a"])], none, none⟩ :=
        (Except.ok.inj hcall).symm
      subst ho
      have hh : header = [("X-Foo", ["a"])] := (Option.some.inj hhdr).symm
      subst hh
      have hk : kv = ("X-Foo", ["a"]) := List.mem_singleton.mp hkv
      subst hk
      decide)⟩

/-! ## C7: the uniform error document -/

/-- C7: `writeXMLError` hands to the encoder, in one call, a document with
exactly the two fields `description` (`err.Error()`) and `error`, and does not
panic.  The `error` field is `err.Name()` if `err` is a `NamedError` (also
when it is an `HTTPEquivError` and the flag is set); otherwise, if `err` is an
`HTTPEquivError` and `SnakeCaseHTTPEquivErrors` is true, the status text of
`err.Status()` lower-cased with every space replaced by an underscore (404
gives `not_found`); otherwise it is decided by the type `t` of `err` with one
pointer level removed (the type of `err` itself when that is not a pointer
type, the pointed-to type when it is): the field is the literal `error` when
the first character of the name of `t` is a lower-case letter (`a` to `z` in
particular), and the name of `t` as `String()` prints it when the first
character is not a lower-case letter (`A` to `Z` in particular) or `t` has no
name. -/
theorem writeXMLError_document (env : Env) (w : Response) (err : GoError) :
    ∃ e : String,
      encodeCalls (writeXMLError env w err).events =
        encodeCalls w.events ++ [.mapOf [("description", err.message), ("error", e)]] ∧
      (writeXMLError env w err).panic = w.panic ∧
      (∀ n, err.name = some n → e = n) ∧
      (err.name = none → ∀ st, err.status = some st →
        env.SnakeCaseHTTPEquivErrors = true →
        e = String.mk ((StatusText st).data.map
          (fun c => if c = ' ' then '_' else c.toLower))) ∧
      (err.name = none → err.status = some 404 →
        env.SnakeCaseHTTPEquivErrors = true → e = "not_found") ∧
      (err.name = none → (err.status = none ∨ env.SnakeCaseHTTPEquivErrors = false) →
        ∀ t, ((err.typ.kind ≠ Kind.Ptr ∧ t = err.typ) ∨
              (∃ s n ms, err.typ = .ref .Ptr s n ms t)) →
          (∀ c rest, t.name.data = c :: rest → IsLower c = true → e = "error") ∧
          (∀ c rest, t.name.data = c :: rest → c.isLower = true → e = "error") ∧
          (∀ c rest, t.name.data = c :: rest → IsLower c = false → e = t.string) ∧
          (∀ c rest, t.name.data = c :: rest → c.isUpper = true → e = t.string) ∧
          (t.name.data = [] → e = t.string)) := by
  obtain ⟨e, he, hW⟩ := writeXMLError_eq env w err
  refine ⟨e, ?_, ?_, ?_, ?_, ?_, ?_⟩
  · rw [hW]
    show encodeCalls (w.events ++ [_, _]) = _
    rw [encodeCalls_append]
    rfl
  · rw [hW]
  · intro n hn
    simp only [errorField, hn] at he
    exact (Except.ok.inj he).symm
  · intro hn st hs hflag
    simp only [errorField, hn, hs, hflag] at he
    rw [← Except.ok.inj he]
    exact snake_case_eq _
  · intro hn hs hflag
    simp only [errorField, hn, hs, hflag] at he
    rw [← Except.ok.inj he]
    decide
  · intro hn hcase t ht
    have hsel : (if Kind.Ptr = err.typ.kind then err.typ.Elem else .ok err.typ) =
        Except.ok t := by
      rcases ht with ⟨hk, rfl⟩ | ⟨s, n, ms, hr⟩
      · exact if_neg (fun h => hk h.symm)
      · rw [hr]
        rfl
    replace he : (if IsLower (DecodeRuneInString t.name) = true then Except.ok "error"
        else Except.ok t.string) = (Except.ok e : Except Panic String) := by
      rw [← he]
      unfold errorField
      rw [hn]
      rcases hcase with hs | hflag
      · rw [hs]
        simp only [hsel]
      · rw [hflag]
        cases err.status <;> simp only [hsel]
    have hlow : ∀ c rest, t.name.data = c :: rest → IsLower c = true → e = "error" := by
      intro c rest hc hl
      have hd : DecodeRuneInString t.name = c := by
        unfold DecodeRuneInString
        rw [hc]
      rw [hd, if_pos hl] at he
      exact (Except.ok.inj he).symm
    have hup : ∀ c rest, t.name.data = c :: rest → IsLower c = false → e = t.string := by
      intro c rest hc hl
      have hd : DecodeRuneInString t.name = c := by
        unfold DecodeRuneInString
        rw [hc]
      rw [hd, if_neg (by simp [hl])] at he
      exact (Except.ok.inj he).symm
    refine ⟨hlow, fun c rest hc hl => hlow c rest hc (IsLower_of_isLower c hl), hup,
      fun c rest hc hu => hup c rest hc (IsLower_of_isUpper c hu), ?_⟩
    intro hempty
    have hd : DecodeRuneInString t.name = Char.ofNat 0xFFFD := by
      unfold DecodeRuneInString
      rw [hempty]
    have hl : IsLower (Char.ofNat 0xFFFD) = false := by decide
    rw [hd, if_neg (by simp [hl])] at he
    exact (Except.ok.inj he).symm

/-- C7, on three errors: one of the unexported type `*errors.errorString`,
one of the exported type `tigertonic.MarshalerError`, and one that is not
named and whose `Status()` is 404. -/
theorem writeXMLError_document_witness :
    encodeCalls (writeXMLError sampleEnv (Response.init []) plainError).events =
      [.mapOf [("description", "boom"), ("error", "error")]] ∧
    encodeCalls (writeXMLError sampleEnv (Response.init []) (NewMarshalerError "bad")).events =
      [.mapOf [("description", "bad"), ("error", "tigertonic.MarshalerError")]] ∧
    encodeCalls (writeXMLError sampleEnv (Response.init []) notFoundError).events =
      [.mapOf [("description", "no such thing"), ("error", "not_found")]] := by
  refine ⟨?_, ?_, ?_⟩
  · obtain ⟨e, hb, _, _, _, _, ht⟩ :=
      writeXMLError_document sampleEnv (Response.init []) plainError
    rw [hb, (ht rfl (Or.inl rfl) (.base .Struct "errors.errorString" "errorString" [])
      (Or.inr ⟨_, _, _, rfl⟩)).2.1 'e' "rrorString".data rfl rfl]
    rfl
  · obtain ⟨e, hb, _, _, _, _, ht⟩ :=
      writeXMLError_document sampleEnv (Response.init []) (NewMarshalerError "bad")
    rw [hb, (ht rfl (Or.inl rfl) (NewMarshalerError "bad").typ
      (Or.inl ⟨by decide, rfl⟩)).2.2.2.1 'M' "arshalerError".data rfl rfl]
    rfl
  · obtain ⟨e, hb, _, _, _, h404, _⟩ :=
      writeXMLError_document sampleEnv (Response.init []) notFoundError
    rw [hb, h404 rfl rfl rfl]
    rfl

/-! ## C8: the 415 response -/

/-- C8, as stated, fails: the declared request type is the struct type
`main.Request`, which is not the empty interface, and `Marshaled` accepts the
function; on a POST request with Content-Type `text/plain` that passes
negotiation, `ServeHTTP` panics in `in2.Elem()` and writes no status at all. -/
theorem ServeHTTP_unsupported_media_type_counterexample :
    Marshaled (some (handlerReturning (handlerType requestStruct) ⟨200, none, none, none⟩)) =
      .ok ⟨handlerReturning (handlerType requestStruct) ⟨200, none, none, none⟩⟩ ∧
    acceptXML postTextRequest = true ∧
    HasPrefix (postTextRequest.Header.Get "Content-Type") "application/xml" = false ∧
    (handlerType requestStruct).In 2 = .ok requestStruct ∧
    ServeHTTP sampleEnv
      ⟨handlerReturning (handlerType requestStruct) ⟨200, none, none, none⟩⟩
      (Response.init []) postTextRequest =
      { header := [("Content-Type", ["application/xml"])],
        events := [],
        panic := some (.runtime "reflect: Elem of invalid type main.Request") } :=
  ⟨rfl, rfl, rfl, rfl, rfl⟩

/-- C8 (amended): for a request that passes negotiation, whose method is
POST, PUT or PATCH, and for a wrapped function whose declared request type is
a pointer, slice, map, array or channel type: when the Content-Type value does
not start with `application/xml`, `ServeHTTP` passes status 415 to
`WriteHeader`, once and as the only status, without panicking, without
decoding the body and without calling the function; when it does start with
`application/xml`, `ServeHTTP` goes on to decode the body.  And for every
request and every wrapped function, when the Content-Type value starts with
`application/xml` the first thing `ServeHTTP` does is never `WriteHeader(415)`. -/
theorem ServeHTTP_unsupported_media_type (env : Env) (m : XMLMarshaler) (h : Header)
    (r : Request) :
    (∀ in2, acceptXML r = true →
      (r.Method = "POST" ∨ r.Method = "PUT" ∨ r.Method = "PATCH") →
      m.v.typ.In 2 = .ok in2 →
      (in2.kind = Kind.Ptr ∨ in2.kind = Kind.Slice ∨ in2.kind = Kind.Map ∨
        in2.kind = Kind.Array ∨ in2.kind = Kind.Chan) →
      (HasPrefix (r.Header.Get "Content-Type") "application/xml" = false →
        statuses (ServeHTTP env m (Response.init h) r).events = [415] ∧
        bodyReads (ServeHTTP env m (Response.init h) r).events = [] ∧
        calls (ServeHTTP env m (Response.init h) r).events = [] ∧
        (ServeHTTP env m (Response.init h) r).panic = none) ∧
      (HasPrefix (r.Header.Get "Content-Type") "application/xml" = true →
        ∃ rq rest, (ServeHTTP env m (Response.init h) r).events = .decode rq :: rest)) ∧
    (HasPrefix (r.Header.Get "Content-Type") "application/xml" = true →
      ∀ hdr, (ServeHTTP env m (Response.init h) r).events.head? ≠
        some (.writeHeader 415 hdr)) := by
  constructor
  · intro in2 hacc hmeth hin2 hkind
    have hm : "PATCH" = r.Method ∨ "POST" = r.Method ∨ "PUT" = r.Method := by
      rcases hmeth with h1 | h1 | h1 <;> simp [h1]
    obtain ⟨t, hnew⟩ : ∃ t, newRequest in2 = .ok (.ptrTo t .zero) := by
      cases in2 with
      | base k s n ms => cases k <;> simp [GoType.kind, BaseKind.toKind] at hkind
      | ref k s n ms e =>
        cases k
        · exact ⟨e, by simp [newRequest, GoType.kind, ElemKind.toKind, GoType.Elem]⟩
        · exact ⟨e, by simp [newRequest, GoType.kind, ElemKind.toKind, GoType.Elem]⟩
        · exact ⟨.ref .Map s n ms e, by simp [newRequest, GoType.kind, ElemKind.toKind]⟩
        · exact ⟨e, by simp [newRequest, GoType.kind, ElemKind.toKind, GoType.Elem]⟩
        · exact ⟨.ref .Slice s n ms e, by simp [newRequest, GoType.kind, ElemKind.toKind]⟩
      | func s n ms i o => simp [GoType.kind] at hkind
    constructor
    · intro hpre
      have hS : ServeHTTP env m (Response.init h) r =
          (((Response.mk (h.Set "Content-Type" "application/xml") [] none).WriteHeader
              StatusUnsupportedMediaType).andThen fun w =>
            writeXMLError env w
              (NewMarshalerError ("Content-Type header is " ++ r.Header.Get "Content-Type" ++
                ", not application/xml"))) := by
        simp [ServeHTTP, hacc, hin2, hnew, hm, hpre, GoValue.isNilRequest, Response.init]
      obtain ⟨tail, ht, hs, _, _⟩ := andThen_writeXMLError env
        ((Response.mk (h.Set "Content-Type" "application/xml") [] none).WriteHeader
          StatusUnsupportedMediaType)
        (NewMarshalerError ("Content-Type header is " ++ r.Header.Get "Content-Type" ++
          ", not application/xml"))
      rw [hS, ht]
      refine ⟨?_, ?_, ?_, rfl⟩
      · show statuses ([Event.writeHeader 415 _] ++ tail) = _
        rw [statuses_append, hs.statuses]
        rfl
      · show bodyReads ([Event.writeHeader 415 _] ++ tail) = _
        rw [bodyReads_append, hs.bodyReads]
        rfl
      · show calls ([Event.writeHeader 415 _] ++ tail) = _
        rw [calls_append, hs.calls]
        rfl
    · intro hpre
      cases hdec : env.Decode r.Body t with
      | some err =>
        have hS : ServeHTTP env m (Response.init h) r =
            ((((Response.mk (h.Set "Content-Type" "application/xml") [] none).emit
                (.decode (.ptrTo t .zero))).WriteHeader StatusBadRequest).andThen fun w =>
              writeXMLError env w err) := by
          simp [ServeHTTP, hacc, hin2, hnew, hm, hpre, GoValue.isNilRequest, Response.init,
            decodeInto, hdec]
        obtain ⟨tail, ht, _⟩ := andThen_writeXMLError env
          (((Response.mk (h.Set "Content-Type" "application/xml") [] none).emit
            (.decode (.ptrTo t .zero))).WriteHeader StatusBadRequest) err
        rw [hS, ht]
        exact ⟨.ptrTo t .zero, _, rfl⟩
      | none =>
        have hS : ServeHTTP env m (Response.init h) r =
            invoke env m
              (((Response.mk (h.Set "Content-Type" "application/xml") [] none).emit
                (.decode (.ptrTo t .zero))).emit .close) r in2
              (.ptrTo t (.decoded r.Body)) := by
          simp [ServeHTTP, hacc, hin2, hnew, hm, hpre, GoValue.isNilRequest, Response.init,
            decodeInto, hdec]
        obtain ⟨tail, ht⟩ := invoke_events env m
          (((Response.mk (h.Set "Content-Type" "application/xml") [] none).emit
            (.decode (.ptrTo t .zero))).emit .close) r in2 (.ptrTo t (.decoded r.Body))
        rw [hS, ht.1]
        exact ⟨.ptrTo t .zero, _, rfl⟩
  · intro hpre hdr
    by_cases hacc : acceptXML r = true
    swap
    · rw [ServeHTTP_rejected env m h r (by simpa using hacc)]
      simp
    unfold ServeHTTP
    simp only [hacc, Bool.not_true, Bool.false_eq_true, if_false, Response.init]
    split
    · simp [Response.raise]
    · split
      · simp [Response.raise]
      · split
        · split
          · rw [head_short]
            simp [StatusInternalServerError]
          · split
            · rename_i hnp
              simp [hpre] at hnp
            · split
              · rw [head_short]
                simp [Response.emit]
              · rw [head_invoke _ _ _ _ _ _ (by simp [Response.emit])]
                simp [Response.emit]
        · split
          · rw [head_invoke _ _ _ _ _ _ (by simp [Response.emit])]
            simp [Response.emit]
          · exact head_invoke_nil _ _ _ _ _ _ rfl _ _

/-- C8 (amended), on a POST request with Content-Type `text/plain` and a
function whose declared request type is `*main.Request`. -/
theorem ServeHTTP_unsupported_media_type_witness :
    statuses (ServeHTTP sampleEnv
      ⟨handlerReturning (handlerType requestPointer) ⟨200, none, none, none⟩⟩
      (Response.init []) postTextRequest).events = [415] ∧
    calls (ServeHTTP sampleEnv
      ⟨handlerReturning (handlerType requestPointer) ⟨200, none, none, none⟩⟩
      (Response.init []) postTextRequest).events = [] := by
  obtain ⟨hst, _, hcalls, _⟩ :=
    ((ServeHTTP_unsupported_media_type sampleEnv
      ⟨handlerReturning (handlerType requestPointer) ⟨200, none, none, none⟩⟩
      [] postTextRequest).1 requestPointer rfl (Or.inl rfl) rfl (Or.inl rfl)).1 rfl
  exact ⟨hst, hcalls⟩

/-! ## C9: the body of a successful response -/

/-- C9, as stated, fails: the wrapped function returns status 0, a non-nil
response value and a nil error; the value is non-nil and the status is not
204, and yet nothing is encoded: `WriteHeader(0)` panics in the response
writer, which accepts the codes from 100 to 999 only. -/
theorem ServeHTTP_success_body_counterexample :
    (0 : Int) ≠ 204 ∧
    ServeHTTP sampleEnv
      ⟨handlerReturning (handlerType emptyInterface) ⟨0, none, some thing, none⟩⟩
      (Response.init []) getRequest =
      { header := [("Content-Type", ["application/xml"])],
        events :=
          [ .call [.url "/things", .header [], .nilRequest],
            .writeHeader 0 [("Content-Type", ["application/xml"])] ],
        panic := some (.runtime "invalid WriteHeader code 0") } ∧
    encodeCalls (ServeHTTP sampleEnv
      ⟨handlerReturning (handlerType emptyInterface) ⟨0, none, some thing, none⟩⟩
      (Response.init []) getRequest).events = [] :=
  ⟨by decide, rfl, rfl⟩

/-- C9 (amended): when the wrapped function was called and returned a nil
error, `ServeHTTP` passes the function's status to `WriteHeader`, once.  When
that status is one the response writer accepts (from 100 to 999), the response
value is then encoded into the body if and only if it is non-nil and the
status is not 204: a non-nil value with another status is handed to the
encoder right after the `WriteHeader`, it is the only call of the encoder, and
the body is what the encoder writes for it.  With status 204 nothing is
encoded or written to the body; with a nil value nothing is encoded or written
to the body, whatever the status.  When the writer does not accept the status
it panics and nothing is encoded. -/
theorem ServeHTTP_success_body (env : Env) (m : XMLMarshaler) (h : Header) (r : Request)
    (args : List GoValue) (out : HandlerResult)
    (hc : args ∈ calls (ServeHTTP env m (Response.init h) r).events)
    (hout : m.v.call args = .ok out) (herr : out.err = none) :
    statuses (ServeHTTP env m (Response.init h) r).events = [out.status] ∧
    (∀ v, out.rs = some v → out.status ≠ 204 → 100 ≤ out.status → out.status ≤ 999 →
      encodeCalls (ServeHTTP env m (Response.init h) r).events = [.value v] ∧
      textsWritten (ServeHTTP env m (Response.init h) r).events =
        (if v.xml = "" then [] else [v.xml]) ∧
      (ServeHTTP env m (Response.init h) r).panic = none ∧
      ∃ pre hdr post, (ServeHTTP env m (Response.init h) r).events =
        pre ++ [.writeHeader out.status hdr, .encode (.value v)] ++ post) ∧
    (out.status = 204 →
      encodeCalls (ServeHTTP env m (Response.init h) r).events = [] ∧
      textsWritten (ServeHTTP env m (Response.init h) r).events = []) ∧
    (out.rs = none →
      encodeCalls (ServeHTTP env m (Response.init h) r).events = [] ∧
      textsWritten (ServeHTTP env m (Response.init h) r).events = []) ∧
    (out.status < 100 ∨ out.status > 999 →
      encodeCalls (ServeHTTP env m (Response.init h) r).events = [] ∧
      textsWritten (ServeHTTP env m (Response.init h) r).events = [] ∧
      (ServeHTTP env m (Response.init h) r).panic =
        some (.runtime ("invalid WriteHeader code " ++ toString out.status))) := by
  obtain ⟨_, w, hq, hS⟩ := ServeHTTP_invoked env m h r args hc
  rw [hout] at hS
  simp only [] at hS
  have hst : statuses (ServeHTTP env m (Response.init h) r).events = [out.status] := by
    rw [hS, statuses_respond]
    simp only [events_emit, statuses_append, hq.statuses, statusWritten, herr]
    rfl
  rw [respond_ok env _ out herr (by simpa using hq.panic)] at hS
  have hpre : encodeCalls (w.emit (.call args)).events = [] ∧
      textsWritten (w.emit (.call args)).events = [] := by
    simp only [events_emit, encodeCalls_append, textsWritten_append, hq.encodeCalls,
      hq.textsWritten]
    exact ⟨rfl, rfl⟩
  refine ⟨hst, ?_, ?_, ?_, ?_⟩
  · intro v hv hne h1 h2
    have hval : ¬ (out.status < 100 ∨ out.status > 999) := by omega
    have h204 : ¬ StatusNoContent = out.status := fun e => hne (by rw [← e]; rfl)
    rw [if_neg hval, hv] at hS
    simp only [ne_eq, h204, not_false_eq_true, if_true] at hS
    rw [hS]
    refine ⟨?_, ?_, rfl, ?_⟩
    · show encodeCalls (_ ++ _ :: _ :: _) = _
      rw [encodeCalls_append, hpre.1, encodeCalls_cons, encodeCalls_cons (.encode _),
        encodeCalls_encodeTail]
      rfl
    · show textsWritten (_ ++ _ :: _ :: _) = _
      rw [textsWritten_append, hpre.2, textsWritten_cons, textsWritten_cons (.encode _),
        textsWritten_encodeTail]
      show [] ++ ([] ++ ([] ++ _)) = _
      rfl
    · exact ⟨(w.emit (.call args)).events, headerWritten (w.emit (.call args)).header out,
        encodeTail (.value v), by simp⟩
  · intro h204
    have hval : ¬ (out.status < 100 ∨ out.status > 999) := by omega
    have h204b : StatusNoContent = out.status := by rw [h204]; rfl
    rw [if_neg hval] at hS
    have hE : (ServeHTTP env m (Response.init h) r).events =
        (w.emit (.call args)).events ++
          [.writeHeader out.status (headerWritten (w.emit (.call args)).header out)] := by
      rw [hS]
      cases out.rs with
      | none => rfl
      | some v => simp [h204b]
    rw [hE]
    constructor
    · show encodeCalls (_ ++ [_]) = _
      rw [encodeCalls_append, hpre.1]
      rfl
    · show textsWritten (_ ++ [_]) = _
      rw [textsWritten_append, hpre.2]
      rfl
  · intro hv
    rw [hv] at hS
    have hE : (ServeHTTP env m (Response.init h) r).events =
        (w.emit (.call args)).events ++
          [.writeHeader out.status (headerWritten (w.emit (.call args)).header out)] := by
      rw [hS]
      by_cases hval : out.status < 100 ∨ out.status > 999
      · rw [if_pos hval]
      · rw [if_neg hval]
    rw [hE]
    constructor
    · rw [encodeCalls_append, hpre.1]
      rfl
    · rw [textsWritten_append, hpre.2]
      rfl
  · intro hval
    rw [if_pos hval] at hS
    rw [hS]
    refine ⟨?_, ?_, rfl⟩
    · show encodeCalls (_ ++ [_]) = _
      rw [encodeCalls_append, hpre.1]
      rfl
    · show textsWritten (_ ++ [_]) = _
      rw [textsWritten_append, hpre.2]
      rfl

/-- C9 (amended), on a function that returns status 200 and a non-nil
response value, and on one that returns status 204 and the same value. -/
theorem ServeHTTP_success_body_witness :
    textsWritten (ServeHTTP sampleEnv
      ⟨handlerReturning (handlerType emptyInterface) ⟨200, none, some thing, none⟩⟩
      (Response.init []) getRequest).events = ["<Thing><Id>7</Id></Thing>"] ∧
    textsWritten (ServeHTTP sampleEnv
      ⟨handlerReturning (handlerType emptyInterface) ⟨204, none, some thing, none⟩⟩
      (Response.init []) getRequest).events = [] :=
  ⟨((ServeHTTP_success_body sampleEnv
      ⟨handlerReturning (handlerType emptyInterface) ⟨200, none, some thing, none⟩⟩
      [] getRequest [.url "/things", .header [], .nilRequest]
      ⟨200, none, some thing, none⟩
      (List.mem_singleton.mpr rfl) rfl rfl).2.1 thing rfl (by decide) (by decide)
      (by decide)).2.1,
   ((ServeHTTP_success_body sampleEnv
      ⟨handlerReturning (handlerType emptyInterface) ⟨204, none, some thing, none⟩⟩
      [] getRequest [.url "/things", .header [], .nilRequest]
      ⟨204, none, some thing, none⟩
      (List.mem_singleton.mpr rfl) rfl rfl).2.2.1 rfl).2⟩

/-! ## C10: methods without a body -/

/-- C10, as stated, fails: the declared request type is the struct type
`main.Request`, which is concrete, and `Marshaled` accepts the function; on a
GET request that passes negotiation `ServeHTTP` panics in `in2.Elem()` before
the function is called. -/
theorem ServeHTTP_no_body_method_counterexample :
    Marshaled (some (handlerReturning (handlerType requestStruct) ⟨200, none, none, none⟩)) =
      .ok ⟨handlerReturning (handlerType requestStruct) ⟨200, none, none, none⟩⟩ ∧
    acceptXML getRequest = true ∧
    ServeHTTP sampleEnv
      ⟨handlerReturning (handlerType requestStruct) ⟨200, none, none, none⟩⟩
      (Response.init []) getRequest =
      { header := [("Content-Type", ["application/xml"])],
        events := [],
        panic := some (.runtime "reflect: Elem of invalid type main.Request") } :=
  ⟨rfl, rfl, rfl⟩

/-- C10 (amended): for a request that passes negotiation and whose method
is none of POST, PUT and PATCH, and for a function accepted by `Marshaled`
whose declared request type is a pointer, slice or map type, `ServeHTTP` does
not decode or read the body and reaches the call of the function without a
panic; the function is called exactly once, with the URL, the request headers,
the zero-valued instance of the declared request type (for a pointer type a
pointer to a fresh zero value, for a slice or map type the unwrapped zero
collection) and, in the 4-parameter form, the request context; what follows is
what `ServeHTTP` does with the results of that call. -/
theorem ServeHTTP_no_body_method (env : Env) (i : Option Boxed) (m : XMLMarshaler)
    (h : Header) (r : Request) (in2 : GoType)
    (hM : Marshaled i = .ok m) (hacc : acceptXML r = true)
    (hmeth : r.Method ≠ "POST" ∧ r.Method ≠ "PUT" ∧ r.Method ≠ "PATCH")
    (hin2 : m.v.typ.In 2 = .ok in2)
    (hkind : in2.kind = Kind.Ptr ∨ in2.kind = Kind.Slice ∨ in2.kind = Kind.Map) :
    ∃ args,
      args = [GoValue.url r.URL, GoValue.header r.Header, zeroRequest in2] ++
        (if m.v.typ.params.length = 3 then [] else [env.Context]) ∧
      calls (ServeHTTP env m (Response.init h) r).events = [args] ∧
      bodyReads (ServeHTTP env m (Response.init h) r).events = [] ∧
      ∃ line,
        ServeHTTP env m (Response.init h) r =
          match m.v.call args with
          | .error p =>
            { header := h.Set "Content-Type" "application/xml",
              events := [.log line, .call args], panic := some p }
          | .ok out =>
            respond env
              { header := h.Set "Content-Type" "application/xml",
                events := [.log line, .call args], panic := none } out := by
  obtain ⟨s, n, ms, a, b, c, tail, outs, htyp, htail, _⟩ := Marshaled_ok_shape i m hM
  have hc : in2 = c := by
    rw [htyp] at hin2
    simp [GoType.In] at hin2
    exact hin2.symm
  subst hc
  have hm : ¬ ("PATCH" = r.Method ∨ "POST" = r.Method ∨ "PUT" = r.Method) := by
    rintro (h1 | h1 | h1)
    · exact hmeth.2.2 h1.symm
    · exact hmeth.1 h1.symm
    · exact hmeth.2.1 h1.symm
  have hnumin : m.v.typ.NumIn = .ok (tail.length + 3) := by
    rw [htyp]; rfl
  have hparams : m.v.typ.params.length = tail.length + 3 := by
    rw [htyp]; rfl
  have hS : ServeHTTP env m (Response.init h) r =
      match m.v.call ([GoValue.url r.URL, GoValue.header r.Header, zeroRequest in2] ++
          (if m.v.typ.params.length = 3 then [] else [env.Context])) with
      | .error p =>
        { header := h.Set "Content-Type" "application/xml",
          events := [.log (r.Method ++
              " request body isn\x27t an empty interface; this is weird and is being ignored\n"),
            .call ([GoValue.url r.URL, GoValue.header r.Header, zeroRequest in2] ++
              (if m.v.typ.params.length = 3 then [] else [env.Context]))],
          panic := some p }
      | .ok out =>
        respond env
          { header := h.Set "Content-Type" "application/xml",
            events := [.log (r.Method ++
                " request body isn\x27t an empty interface; this is weird and is being ignored\n"),
              .call ([GoValue.url r.URL, GoValue.header r.Header, zeroRequest in2] ++
                (if m.v.typ.params.length = 3 then [] else [env.Context]))],
            panic := none } out := by
    rw [hparams]
    cases in2 with
    | base k s n ms => cases k <;> simp [GoType.kind, BaseKind.toKind] at hkind
    | func s n ms i o => simp [GoType.kind] at hkind
    | ref k s2 n2 ms2 e =>
      rcases tail with _ | ⟨x, _ | ⟨y, rest⟩⟩
      · cases k <;>
          first
          | (simp [GoType.kind, ElemKind.toKind] at hkind; done)
          | (simp only [ServeHTTP, hacc, hin2, hm, newRequest, invoke, hnumin, GoType.kind,
              ElemKind.toKind, GoType.Elem, GoValue.isNilRequest, GoValue.Elem, zeroRequest,
              Response.init, Response.emit, Response.raise]
             simp)
      · cases k <;>
          first
          | (simp [GoType.kind, ElemKind.toKind] at hkind; done)
          | (simp only [ServeHTTP, hacc, hin2, hm, newRequest, invoke, hnumin, GoType.kind,
              ElemKind.toKind, GoType.Elem, GoValue.isNilRequest, GoValue.Elem, zeroRequest,
              Response.init, Response.emit, Response.raise]
             simp)
      · simp at htail
  refine ⟨_, rfl, ?_, ?_, _, hS⟩
  · rw [hS]
    cases m.v.call _ with
    | error p => rfl
    | ok out => rw [calls_respond]; rfl
  · rw [hS]
    cases m.v.call _ with
    | error p => rfl
    | ok out => rw [bodyReads_respond]; rfl

/-- C10 (amended), on a GET request and a function whose declared request
type is `*main.Request`: the function is called once, with a pointer to a
fresh zero `main.Request`. -/
theorem ServeHTTP_no_body_method_witness :
    calls (ServeHTTP sampleEnv
      ⟨handlerReturning (handlerType requestPointer) ⟨200, none, none, none⟩⟩
      (Response.init []) getRequest).events =
      [[.url "/things", .header [], .ptrTo requestStruct .zero]] ∧
    bodyReads (ServeHTTP sampleEnv
      ⟨handlerReturning (handlerType requestPointer) ⟨200, none, none, none⟩⟩
      (Response.init []) getRequest).events = [] := by
  obtain ⟨args, hargs, hcalls, hreads, _⟩ :=
    ServeHTTP_no_body_method sampleEnv
      (some (handlerReturning (handlerType requestPointer) ⟨200, none, none, none⟩))
      ⟨handlerReturning (handlerType requestPointer) ⟨200, none, none, none⟩⟩
      [] getRequest requestPointer rfl rfl (by decide) rfl (Or.inl rfl)
  rw [hcalls, hargs]
  exact ⟨rfl, hreads⟩

end Punchdrunktiger
